import Mathlib

/-!
Verification development for the PredNet recurrent layer implemented in
src/ext/prednet/prednet.py (the single source file of the repository).

The embedding has three levels, all translated from the source:

* a configuration level: the arguments and field assignments of
  PredNet.__init__ (with asserts modeled as Option failure), get_config,
  and compute_output_shape;
* a shape level: the shapes of the tensors flowing through one call of
  PredNet.step, including the input-channel counts each convolution was
  built with in PredNet.build (an application whose input does not match
  the built channel count fails, as the backend convolution would);
* a value level: the numeric recurrence of PredNet.step over rational
  tensors indexed (channel, row, column), with convolution, pooling,
  upsampling and the activation functions as explicit parameters.

Tensors carry no batch axis: every operation of step acts independently
per batch element, so one batch element is modeled.  The channel axis of
keras concatenation is the channel component in both data formats; the
data_format only changes how a shape is rendered as a dimension tuple.
-/

/-- Constructor arguments of PredNet.__init__ (prednet.py lines 64 to 70).
Activation functions are passed to keras activations.get by name; the model
keeps the names, since get_config serializes each resolved function back
through its own name. return_sequences is the keyword argument consumed by
the Recurrent base class through kwargs. -/
structure PredNetArgs where
  stack_sizes : List ℕ
  R_stack_sizes : List ℕ
  A_filt_sizes : List ℕ
  Ahat_filt_sizes : List ℕ
  R_filt_sizes : List ℕ
  pixel_max : ℚ
  error_activation : String
  A_activation : String
  LSTM_activation : String
  LSTM_inner_activation : String
  output_mode : String
  extrap_start_time : Option ℕ
  data_format : String
  return_sequences : Bool
deriving DecidableEq, Repr

/-- The configuration fields a PredNet instance holds after __init__
(prednet.py lines 72 to 123). -/
structure PredNetM where
  stack_sizes : List ℕ
  nb_layers : ℕ
  R_stack_sizes : List ℕ
  A_filt_sizes : List ℕ
  Ahat_filt_sizes : List ℕ
  R_filt_sizes : List ℕ
  pixel_max : ℚ
  error_activation : String
  A_activation : String
  LSTM_activation : String
  LSTM_inner_activation : String
  output_mode : String
  output_layer_type : Option String
  output_layer_num : Option ℕ
  extrap_start_time : Option ℕ
  data_format : String
  return_sequences : Bool
deriving DecidableEq, Repr

/-- prednet.py line 100. -/
def default_output_modes : List String := ["prediction", "error", "all"]

/-- prednet.py line 101: the single layer output modes generated for a
given number of layers, in the comprehension order of the source. -/
def layer_output_modes (nb_layers : ℕ) : List String :=
  (List.range nb_layers).flatMap (fun n => ["R", "E", "A", "Ahat"].map (fun t => t ++ toString n))

/-- int(self.output_mode[-1]) (prednet.py line 108): the numeric value of
the final character of the mode string. -/
def lastCharDigit (s : String) : ℕ := s.back.toNat - 48

/-- PredNet.__init__ (prednet.py lines 64 to 123).  A failing assert is
modeled as none.  Line 83 of the source rebinds R_filt_sizes to (3, 3, 3, 3)
before the length assert on line 84, so the assert compares the constant
length 4 with nb_layers and the caller supplied R_filt_sizes is ignored;
the model reproduces that behaviour. -/
def initM (a : PredNetArgs) : Option PredNetM :=
  let nb_layers := a.stack_sizes.length
  if a.R_stack_sizes.length = nb_layers then
    if (a.A_filt_sizes.length : ℤ) = (nb_layers : ℤ) - 1 then
      if a.Ahat_filt_sizes.length = nb_layers then
        let R_filt_sizes : List ℕ := [3, 3, 3, 3]
        if R_filt_sizes.length = nb_layers then
          if a.output_mode ∈ default_output_modes ++ layer_output_modes nb_layers then
            if a.data_format = "channels_last" ∨ a.data_format = "channels_first" then
              some { stack_sizes := a.stack_sizes
                     nb_layers := nb_layers
                     R_stack_sizes := a.R_stack_sizes
                     A_filt_sizes := a.A_filt_sizes
                     Ahat_filt_sizes := a.Ahat_filt_sizes
                     R_filt_sizes := R_filt_sizes
                     pixel_max := a.pixel_max
                     error_activation := a.error_activation
                     A_activation := a.A_activation
                     LSTM_activation := a.LSTM_activation
                     LSTM_inner_activation := a.LSTM_inner_activation
                     output_mode := a.output_mode
                     output_layer_type :=
                       if a.output_mode ∈ layer_output_modes nb_layers then
                         some (a.output_mode.dropRight 1)
                       else none
                     output_layer_num :=
                       if a.output_mode ∈ layer_output_modes nb_layers then
                         some (lastCharDigit a.output_mode)
                       else none
                     extrap_start_time := a.extrap_start_time
                     data_format := a.data_format
                     return_sequences := a.return_sequences }
            else none
          else none
        else none
      else none
    else none
  else none

/-- PredNet.get_config (prednet.py lines 324 to 342) merged with the
Recurrent base configuration, viewed as the argument record a reconstruction
passes back to __init__.  Keras named activation functions satisfy
activations.get(name).__name__ == name, so exporting by name is the
identity on the stored names. -/
def getConfigArgs (m : PredNetM) : PredNetArgs :=
  { stack_sizes := m.stack_sizes
    R_stack_sizes := m.R_stack_sizes
    A_filt_sizes := m.A_filt_sizes
    Ahat_filt_sizes := m.Ahat_filt_sizes
    R_filt_sizes := m.R_filt_sizes
    pixel_max := m.pixel_max
    error_activation := m.error_activation
    A_activation := m.A_activation
    LSTM_activation := m.LSTM_activation
    LSTM_inner_activation := m.LSTM_inner_activation
    output_mode := m.output_mode
    extrap_start_time := m.extrap_start_time
    data_format := m.data_format
    return_sequences := m.return_sequences }

/-- input_shape[self.row_axis] for the full 5 dimensional input shape
(samples, time, then frame dimensions); row_axis is -2 for channels_first
and -3 for channels_last (prednet.py lines 119 to 121). -/
def rowOf (m : PredNetM) (input_shape : List ℕ) : ℕ :=
  if m.data_format = "channels_first" then input_shape.getD 3 0 else input_shape.getD 2 0

/-- input_shape[self.column_axis]. -/
def colOf (m : PredNetM) (input_shape : List ℕ) : ℕ :=
  if m.data_format = "channels_first" then input_shape.getD 4 0 else input_shape.getD 3 0

/-- input_shape[self.channel_axis]. -/
def chOf (m : PredNetM) (input_shape : List ℕ) : ℕ :=
  if m.data_format = "channels_first" then input_shape.getD 2 0 else input_shape.getD 4 0

/-- PredNet.compute_output_shape (prednet.py lines 125 to 147).  Shape
entries are integers and the division by 2 ** layer is integer division. -/
def compute_output_shape (m : PredNetM) (input_shape : List ℕ) : List ℕ :=
  let out_shape : List ℕ :=
    if m.output_mode = "prediction" then input_shape.drop 2
    else if m.output_mode = "error" then [m.nb_layers]
    else if m.output_mode = "all" then [(input_shape.drop 2).prod + m.nb_layers]
    else
      let stack := if m.output_layer_type = some "R" then m.R_stack_sizes else m.stack_sizes
      let stack_mult := if m.output_layer_type = some "E" then 2 else 1
      let n := m.output_layer_num.getD 0
      let out_stack_size := stack_mult * stack.getD n 0
      let out_nb_row := rowOf m input_shape / 2 ^ n
      let out_nb_col := colOf m input_shape / 2 ^ n
      if m.data_format = "channels_first" then [out_stack_size, out_nb_row, out_nb_col]
      else [out_nb_row, out_nb_col, out_stack_size]
  if m.return_sequences then input_shape.take 2 ++ out_shape
  else input_shape.take 1 ++ out_shape

/-- Abstract shape of one batch element of a 4 dimensional tensor: channel
count and spatial extent.  Channel position inside a concrete dimension
tuple depends on data_format and is applied by encDims only. -/
structure Shape3 where
  ch : ℕ
  rows : ℕ
  cols : ℕ
deriving DecidableEq, Repr

/-- Shape action of a built Conv2D with padding same and stride 1: the
spatial size is preserved, the channels become the filter count, and the
input channel count must equal the one the layer was built with. -/
def convSh (builtIn filters : ℕ) (s : Shape3) : Option Shape3 :=
  if s.ch = builtIn then some ⟨filters, s.rows, s.cols⟩ else none

/-- Shape action of MaxPooling2D with default pool size (2, 2): incomplete
windows are dropped, hence integer halving. -/
def poolSh (s : Shape3) : Shape3 := ⟨s.ch, s.rows / 2, s.cols / 2⟩

/-- Shape action of UpSampling2D with default size (2, 2). -/
def upSh (s : Shape3) : Shape3 := ⟨s.ch, 2 * s.rows, 2 * s.cols⟩

/-- Shape action of channel axis concatenation: the spatial sizes must
agree. -/
def concatSh (s t : Shape3) : Option Shape3 :=
  if s.rows = t.rows ∧ s.cols = t.cols then some ⟨s.ch + t.ch, s.rows, s.cols⟩ else none

/-- Shape action of an elementwise binary tensor operation (product, sum,
difference): the shapes must coincide. -/
def sameSh (s t : Shape3) : Option Shape3 :=
  if s = t then some s else none

/-- Input channel count the four gate convolutions of layer l are built
with (prednet.py lines 232 to 235). -/
def gateInCh (m : PredNetM) (l : ℕ) : ℕ :=
  m.stack_sizes.getD l 0 * 2 + m.R_stack_sizes.getD l 0 +
    (if l < m.nb_layers - 1 then m.R_stack_sizes.getD (l + 1) 0 else 0)

/-- Input channel count the Ahat convolution of layer l is built with
(prednet.py line 229). -/
def ahatInCh (m : PredNetM) (l : ℕ) : ℕ := m.R_stack_sizes.getD l 0

/-- Input channel count the A convolution of layer l is built with
(prednet.py line 231): the source uses 2 * R_stack_sizes[l]. -/
def aInCh (m : PredNetM) (l : ℕ) : ℕ := 2 * m.R_stack_sizes.getD l 0

/-- Number of channels of the error tensor E_l that step applies the A
convolution of layer l to: E_l concatenates two tensors with the channel
count of the layer target (prednet.py lines 288 to 291). -/
def eCh (m : PredNetM) (l : ℕ) : ℕ := 2 * m.stack_sizes.getD l 0

/-- State shape of r_tm1[l] and c_tm1[l] produced by get_initial_state
(prednet.py lines 166 to 186): R_stack_sizes[l] channels at the input
spatial size integer divided by 2 ** l. -/
def initRSh (m : PredNetM) (H W l : ℕ) : Shape3 :=
  ⟨m.R_stack_sizes.getD l 0, H / 2 ^ l, W / 2 ^ l⟩

/-- State shape of e_tm1[l] produced by get_initial_state: twice
stack_sizes[l] channels. -/
def initESh (m : PredNetM) (H W l : ℕ) : Shape3 :=
  ⟨2 * m.stack_sizes.getD l 0, H / 2 ^ l, W / 2 ^ l⟩

/-- Shape of the representation tensor computed at layer l in the top down
loop of step (prednet.py lines 263 to 278), given the previous state shapes
rS, cS, eS and, behind the fuel argument, the shape already computed for
the layer above.  The gate output must match the previous cell shape for
the elementwise products of lines 272 and 273. -/
def rShBody (m : PredNetM) (rS cS eS : ℕ → Shape3) (l : ℕ) (above : Option Shape3) :
    Option Shape3 := do
  let base ← concatSh (rS l) (eS l)
  let inp ←
    if l < m.nb_layers - 1 then do
      let ru ← above
      concatSh base (upSh ru)
    else some base
  let cv ← convSh (gateInCh m l) (m.R_stack_sizes.getD l 0) inp
  sameSh cv (cS l)

/-- Fuel indexed recursion for rShBody: with fuel k the shapes of layers
l, l + 1, ..., l + k are available.  Layer nb_layers - 1 consumes no upper
shape, so fuel nb_layers - 1 - l suffices for layer l. -/
def rShF (m : PredNetM) (rS cS eS : ℕ → Shape3) : ℕ → ℕ → Option Shape3
  | 0, l => rShBody m rS cS eS l none
  | k + 1, l => rShBody m rS cS eS l (rShF m rS cS eS k (l + 1))

/-- Shape of R_l after the top down pass of step. -/
def rShAt (m : PredNetM) (rS cS eS : ℕ → Shape3) (l : ℕ) : Option Shape3 :=
  rShF m rS cS eS (m.nb_layers - 1 - l) l

/-- Shape of the prediction Ahat_l of step (prednet.py line 282); the
layer 0 clipping of line 284 does not change the shape. -/
def ahatSh (m : PredNetM) (rSh : ℕ → Option Shape3) (l : ℕ) : Option Shape3 := do
  let r ← rSh l
  convSh (ahatInCh m l) (m.stack_sizes.getD l 0) r

/-- Shape of the error tensor E_l (prednet.py lines 288 to 291): the two
rectified differences require the prediction and target shapes to agree,
and concatenate on the channel axis. -/
def eShOf (m : PredNetM) (rSh : ℕ → Option Shape3) (a : Option Shape3) (l : ℕ) :
    Option Shape3 := do
  let aS ← a
  let ah ← ahatSh m rSh l
  let d ← sameSh ah aS
  pure ⟨2 * d.ch, d.rows, d.cols⟩

/-- Shapes of the target a_l and the error E_l along the bottom up pass of
step (prednet.py lines 281 to 305): the layer 0 target is the input frame,
the layer l + 1 target applies the A convolution of layer l, built with
aInCh input channels, to E_l and halves it by pooling (lines 303 to 305). -/
def aeSh (m : PredNetM) (rSh : ℕ → Option Shape3) (frame : Shape3) :
    ℕ → Option Shape3 × Option Shape3
  | 0 => (some frame, eShOf m rSh (some frame) 0)
  | l + 1 =>
    let a : Option Shape3 := do
      let e ← (aeSh m rSh frame l).2
      let cv ← convSh (aInCh m l) (m.stack_sizes.getD (l + 1) 0) e
      pure (poolSh cv)
    (a, eShOf m rSh a (l + 1))

/-- Renders an abstract shape as the trailing dimension tuple of the
configured data format. -/
def encDims (m : PredNetM) (s : Shape3) : List ℕ :=
  if m.data_format = "channels_first" then [s.ch, s.rows, s.cols]
  else [s.rows, s.cols, s.ch]

/-- Trailing dimensions of the tensor one call of PredNet.step returns,
given the shapes of the incoming state and input frame: none when some
tensor operation inside the step is ill shaped (so the backend raises and
no output tensor is produced), or when no branch of the step assigns the
output variable.  All layers are computed before the output is selected,
exactly as in the source loops. -/
def stepTrailingOut (m : PredNetM) (rS cS eS : ℕ → Shape3) (frame : Shape3) :
    Option (List ℕ) :=
  let L := m.nb_layers
  let rSh := fun l => rShAt m rS cS eS l
  let ae := aeSh m rSh frame
  if (List.range L).all (fun l => (rSh l).isSome && ((ae l).2).isSome) then
    match m.output_layer_type with
    | some ty =>
      match m.output_layer_num with
      | some n =>
        if n < L then
          if ty = "A" then do let aS ← (ae n).1; pure (encDims m aS)
          else if ty = "Ahat" then do let ah ← ahatSh m rSh n; pure (encDims m ah)
          else if ty = "R" then do let r ← rSh n; pure (encDims m r)
          else if ty = "E" then do let e ← (ae n).2; pure (encDims m e)
          else none
        else none
      | none => none
    | none =>
      if m.output_mode = "prediction" then do
        let ah ← ahatSh m rSh 0
        pure (encDims m ah)
      else if m.output_mode = "error" then some [L]
      else do
        let ah ← ahatSh m rSh 0
        pure [ah.ch * ah.rows * ah.cols + L]
  else none

/-- One channel of a frame: a matrix of rationals, rows of columns. -/
abbrev Chan := List (List ℚ)

/-- One batch element of a 4 dimensional tensor, indexed channel, row,
column. -/
abbrev Tensor := List Chan

/-- Zero tensor of the given dimensions. -/
def zeroT (c h w : ℕ) : Tensor :=
  List.replicate c (List.replicate h (List.replicate w (0 : ℚ)))

/-- Constant tensor of the given dimensions. -/
def constT (c h w : ℕ) (v : ℚ) : Tensor :=
  List.replicate c (List.replicate h (List.replicate w v))

/-- Elementwise map over a tensor, the effect of applying an activation
function. -/
def mapT (f : ℚ → ℚ) (t : Tensor) : Tensor := t.map (fun ch => ch.map (fun r => r.map f))

/-- Elementwise combination of two tensors of equal shape. -/
def zipT (f : ℚ → ℚ → ℚ) (t u : Tensor) : Tensor :=
  List.zipWith (fun a b => List.zipWith (fun c d => List.zipWith f c d) a b) t u

/-- Elementwise tensor product, K dot notation star in the source. -/
def mulT (t u : Tensor) : Tensor := zipT (fun a b => a * b) t u

/-- Elementwise tensor sum. -/
def addT (t u : Tensor) : Tensor := zipT (fun a b => a + b) t u

/-- Elementwise tensor difference. -/
def subT (t u : Tensor) : Tensor := zipT (fun a b => a - b) t u

/-- K.minimum of a tensor and a broadcast scalar (prednet.py line 284). -/
def minScalar (t : Tensor) (M : ℚ) : Tensor := mapT (fun x => min x M) t

/-- Spatial extent of a tensor, read from its first channel. -/
def chanDims (t : Tensor) : ℕ × ℕ :=
  ((t.headD []).length, ((t.headD []).headD []).length)

/-- Reads a channel at signed spatial coordinates, with zero outside the
bounds: the zero padding of a padding same convolution. -/
def at2 (c : Chan) (r col : ℤ) : ℚ :=
  if 0 ≤ r ∧ 0 ≤ col then (c.getD r.toNat []).getD col.toNat 0 else 0

/-- Weights and bias of one Conv2D layer: kernel indexed output channel,
input channel, kernel row, kernel column. -/
structure ConvParams where
  kernel : List (List (List (List ℚ)))
  bias : List ℚ
deriving DecidableEq, Repr

/-- Placeholder convolution for out of range layer indices; never reached
under the length hypotheses of the theorems. -/
def cp0 : ConvParams := ⟨[], []⟩

/-- All zero parameters of a Conv2D with the given built dimensions. -/
def zeroConv (outCh inCh k : ℕ) : ConvParams :=
  ⟨List.replicate outCh (List.replicate inCh (List.replicate k (List.replicate k (0 : ℚ)))),
   List.replicate outCh 0⟩

/-- One output entry of a padding same stride 1 convolution: bias plus the
kernel window sum around (r, c), with zero padding of (k - 1) / 2 on top
and left as the backend places it for odd kernels. -/
def convEntry (w : List (List (List ℚ))) (b : ℚ) (inp : Tensor)
    (pr pc : ℕ) (r c : ℕ) : ℚ :=
  b + ((w.zip inp).map (fun wc =>
        (wc.1.enum.map (fun wrow =>
          (wrow.2.enum.map (fun wv =>
            wv.2 * at2 wc.2 ((r : ℤ) + (wrow.1 : ℤ) - (pr : ℤ))
              ((c : ℤ) + (wv.1 : ℤ) - (pc : ℤ)))).sum)).sum)).sum

/-- A built Conv2D layer called on a tensor (Conv2D(...).call in the
source): padding same, stride 1, activation act applied after the bias. -/
def convSame (p : ConvParams) (act : ℚ → ℚ) (inp : Tensor) : Tensor :=
  let d := chanDims inp
  let kh := ((p.kernel.headD []).headD []).length
  let kw := (((p.kernel.headD []).headD []).headD []).length
  let pr := (kh - 1) / 2
  let pc := (kw - 1) / 2
  (p.kernel.zip p.bias).map (fun ob =>
    (List.range d.1).map (fun r =>
      (List.range d.2).map (fun c => act (convEntry ob.1 ob.2 inp pr pc r c))))

/-- UpSampling2D with size (2, 2): nearest neighbour doubling of rows and
columns (prednet.py line 220). -/
def up2 (t : Tensor) : Tensor :=
  t.map (fun ch => (ch.map (fun row => row.flatMap (fun x => [x, x]))).flatMap
    (fun row => [row, row]))

/-- Consecutive disjoint pairs of a list, dropping a leftover element. -/
def pairUp {α : Type} : List α → List (α × α)
  | a :: b :: rest => (a, b) :: pairUp rest
  | _ => []

/-- One output row of MaxPooling2D from two input rows. -/
def poolRowPair (r1 r2 : List ℚ) : List ℚ :=
  (pairUp (r1.zip r2)).map (fun p => max (max p.1.1 p.1.2) (max p.2.1 p.2.2))

/-- MaxPooling2D with default pool size (2, 2) and stride (2, 2)
(prednet.py line 221). -/
def pool2 (t : Tensor) : Tensor :=
  t.map (fun ch => (pairUp ch).map (fun p => poolRowPair p.1 p.2))

/-- relu, hardwired for the layer 0 Ahat convolution (prednet.py line 213). -/
def reluQ (x : ℚ) : ℚ := max x 0

/-- Flattening of one batch element, K.batch_flatten without the batch
axis. -/
def flatT (t : Tensor) : List ℚ := t.flatMap (fun ch => ch.flatMap (fun r => r))

/-- K.mean over the flattened non batch entries (prednet.py line 312). -/
def meanT (t : Tensor) : ℚ := (flatT t).sum / ((flatT t).length : ℚ)

/-- The step output: a tensor for prediction and single layer modes, a
vector for the error and all modes (whose keras shape is (batch, n)). -/
inductive StepOut
  | tensor (t : Tensor)
  | vec (v : List ℚ)
deriving DecidableEq, Repr

/-- The state list threaded through step: the r, c, e tensors of every
layer in the order of the source, and, when extrapolating, the previous
frame prediction together with the integer timestep counter (the two extra
entries of prednet.py lines 194 to 195 and 320 to 321). -/
structure StepState where
  core : List Tensor
  extra : Option (Tensor × ℕ)
deriving DecidableEq, Repr

/-- The numeric configuration and built layers PredNet.step works with:
parsed output mode, activation functions resolved by activations.get, and
the six per layer convolution families of build.  The activation each
convolution was built with (prednet.py lines 206 to 218) is applied at the
call sites below: LSTM_inner_activation for the i, f, o gates,
LSTM_activation for the c gate, relu at layer 0 and A_activation elsewhere
for ahat, and A_activation for a. -/
structure PredNetV where
  nb_layers : ℕ
  pixel_max : ℚ
  error_activation : ℚ → ℚ
  A_activation : ℚ → ℚ
  LSTM_activation : ℚ → ℚ
  LSTM_inner_activation : ℚ → ℚ
  output_mode : String
  output_layer_type : Option String
  output_layer_num : Option ℕ
  extrap_start_time : Option ℕ
  conv_i : List ConvParams
  conv_f : List ConvParams
  conv_c : List ConvParams
  conv_o : List ConvParams
  conv_ahat : List ConvParams
  conv_a : List ConvParams

/-- r_tm1 = states[:nb_layers] (prednet.py line 250). -/
def stateR (m : PredNetV) (s : StepState) : List Tensor := s.core.take m.nb_layers

/-- c_tm1 = states[nb_layers:2 nb_layers] (line 251). -/
def stateC (m : PredNetV) (s : StepState) : List Tensor :=
  (s.core.drop m.nb_layers).take m.nb_layers

/-- e_tm1 = states[2 nb_layers:3 nb_layers] (line 252). -/
def stateE (m : PredNetV) (s : StepState) : List Tensor :=
  (s.core.drop (2 * m.nb_layers)).take m.nb_layers

/-- Lines 254 to 256 of the source: when extrapolating and the timestep
counter has reached t_extrap (the variable holding extrap_start_time), the
previous frame prediction carried in the state replaces the supplied
frame. -/
def effInput (m : PredNetV) (a0 : Tensor) (s : StepState) : Tensor :=
  match m.extrap_start_time, s.extra with
  | some T, some pt => if T ≤ pt.2 then pt.1 else a0
  | _, _ => a0

/-- Loop body of the top down representation update (prednet.py lines 263
to 278), acting on the accumulator (c list, r list, r_up). -/
def tdBody (m : PredNetV) (r_tm1 c_tm1 e_tm1 : List Tensor)
    (acc : List Tensor × List Tensor × Tensor) (l : ℕ) :
    List Tensor × List Tensor × Tensor :=
  let inputs := ([r_tm1.getD l [], e_tm1.getD l []] ++
      if l < m.nb_layers - 1 then [acc.2.2] else []).flatten
  let i := convSame (m.conv_i.getD l cp0) m.LSTM_inner_activation inputs
  let f := convSame (m.conv_f.getD l cp0) m.LSTM_inner_activation inputs
  let o := convSame (m.conv_o.getD l cp0) m.LSTM_inner_activation inputs
  let cNew := addT (mulT f (c_tm1.getD l []))
    (mulT i (convSame (m.conv_c.getD l cp0) m.LSTM_activation inputs))
  let rNew := mulT o (mapT m.LSTM_activation cNew)
  (cNew :: acc.1, rNew :: acc.2.1, if 0 < l then up2 rNew else acc.2.2)

/-- Loop body of the bottom up error and prediction update (prednet.py
lines 281 to 305), acting on the accumulator (a, e list, frame prediction,
captured output). -/
def buBody (m : PredNetV) (rL : List Tensor)
    (acc : Tensor × List Tensor × Tensor × Option StepOut) (l : ℕ) :
    Tensor × List Tensor × Tensor × Option StepOut :=
  let a := acc.1
  let ah0 := convSame (m.conv_ahat.getD l cp0)
    (if l = 0 then reluQ else m.A_activation) (rL.getD l [])
  let ahat := if l = 0 then minScalar ah0 m.pixel_max else ah0
  let frame := if l = 0 then ahat else acc.2.2.1
  let e := acc.2.1 ++ [mapT m.error_activation (subT ahat a) ++
    mapT m.error_activation (subT a ahat)]
  let out :=
    if m.output_layer_num = some l then
      match m.output_layer_type with
      | some ty =>
        if ty = "A" then some (StepOut.tensor a)
        else if ty = "Ahat" then some (StepOut.tensor ahat)
        else if ty = "R" then some (StepOut.tensor (rL.getD l []))
        else if ty = "E" then some (StepOut.tensor (e.getD l []))
        else acc.2.2.2
      | none => acc.2.2.2
    else acc.2.2.2
  let aNext := if l < m.nb_layers - 1 then
      pool2 (convSame (m.conv_a.getD l cp0) m.A_activation (e.getD l []))
    else a
  (aNext, e, frame, out)

/-- PredNet.step (prednet.py lines 249 to 322): the output selected by the
output mode (none when the source would leave the output variable unbound)
and the next state. -/
def stepV (m : PredNetV) (a0 : Tensor) (s : StepState) : Option StepOut × StepState :=
  let L := m.nb_layers
  let a := effInput m a0 s
  let td := ((List.range L).reverse).foldl
    (tdBody m (stateR m s) (stateC m s) (stateE m s)) ([], [], [])
  let cL := td.1
  let rL := td.2.1
  let bu := (List.range L).foldl (buBody m rL) (a, [], [], none)
  let eL := bu.2.1
  let frame := bu.2.2.1
  let output :=
    if m.output_layer_type = none then
      if m.output_mode = "prediction" then some (StepOut.tensor frame)
      else
        let all_error := (List.range L).map (fun l => meanT (eL.getD l []))
        if m.output_mode = "error" then some (StepOut.vec all_error)
        else some (StepOut.vec (flatT frame ++ all_error))
    else bu.2.2.2
  let extra : Option (Tensor × ℕ) :=
    match m.extrap_start_time, s.extra with
    | some _, some pt => some (frame, pt.2 + 1)
    | _, _ => none
  (output, ⟨rL ++ cL ++ eL, extra⟩)

/-- Claim side formulation of the top down update, following section 4.3 of
the spec: the gates of layer l are computed from the channel concatenation
of the previous representation and error of layer l with, for l below the
top, the upsampled representation just computed at layer l + 1; the new
cell is f times the old cell plus i times the cell candidate, and the new
representation is o times the cell activation of the new cell.  The fuel
argument makes the downward recursion structural; fuel k serves every layer
l with nb_layers - 1 - l at most k, and the top layer consumes none. -/
def crSpecF (m : PredNetV) (r_tm1 c_tm1 e_tm1 : List Tensor) :
    ℕ → ℕ → Tensor × Tensor
  | 0, l =>
    let inputs := ([r_tm1.getD l [], e_tm1.getD l []] ++ ([] : List Tensor)).flatten
    let i := convSame (m.conv_i.getD l cp0) m.LSTM_inner_activation inputs
    let f := convSame (m.conv_f.getD l cp0) m.LSTM_inner_activation inputs
    let o := convSame (m.conv_o.getD l cp0) m.LSTM_inner_activation inputs
    let cNew := addT (mulT f (c_tm1.getD l []))
      (mulT i (convSame (m.conv_c.getD l cp0) m.LSTM_activation inputs))
    (cNew, mulT o (mapT m.LSTM_activation cNew))
  | k + 1, l =>
    let inputs := ([r_tm1.getD l [], e_tm1.getD l []] ++
      if l < m.nb_layers - 1 then [up2 (crSpecF m r_tm1 c_tm1 e_tm1 k (l + 1)).2]
      else []).flatten
    let i := convSame (m.conv_i.getD l cp0) m.LSTM_inner_activation inputs
    let f := convSame (m.conv_f.getD l cp0) m.LSTM_inner_activation inputs
    let o := convSame (m.conv_o.getD l cp0) m.LSTM_inner_activation inputs
    let cNew := addT (mulT f (c_tm1.getD l []))
      (mulT i (convSame (m.conv_c.getD l cp0) m.LSTM_activation inputs))
    (cNew, mulT o (mapT m.LSTM_activation cNew))

/-- New cell tensor C_l of one step, claim side. -/
def specC (m : PredNetV) (s : StepState) (l : ℕ) : Tensor :=
  (crSpecF m (stateR m s) (stateC m s) (stateE m s) (m.nb_layers - 1 - l) l).1

/-- New representation tensor R_l of one step, claim side. -/
def specR (m : PredNetV) (s : StepState) (l : ℕ) : Tensor :=
  (crSpecF m (stateR m s) (stateC m s) (stateE m s) (m.nb_layers - 1 - l) l).2

/-- Claim side prediction of layer l: the Ahat convolution of the new
representation, clipped from above by pixel_max at layer 0. -/
def ahatSpec (m : PredNetV) (rs : ℕ → Tensor) (l : ℕ) : Tensor :=
  let ah := convSame (m.conv_ahat.getD l cp0)
    (if l = 0 then reluQ else m.A_activation) (rs l)
  if l = 0 then minScalar ah m.pixel_max else ah

/-- Claim side error tensor of layer l for the target a: the rectified
positive difference concatenated with the rectified negative one on the
channel axis. -/
def eSpecOf (m : PredNetV) (rs : ℕ → Tensor) (a : Tensor) (l : ℕ) : Tensor :=
  mapT m.error_activation (subT (ahatSpec m rs l) a) ++
    mapT m.error_activation (subT a (ahatSpec m rs l))

/-- Claim side bottom up recursion: the pair of the target a_l and error
E_l of layer l.  The layer 0 target is the effective input frame; the
layer l + 1 target applies the A convolution of layer l to E_l and max
pools it. -/
def aeSpec (m : PredNetV) (rs : ℕ → Tensor) (aInit : Tensor) :
    ℕ → Tensor × Tensor
  | 0 => (aInit, eSpecOf m rs aInit 0)
  | l + 1 =>
    let a := pool2 (convSame (m.conv_a.getD l cp0) m.A_activation
      (aeSpec m rs aInit l).2)
    (a, eSpecOf m rs a (l + 1))

/-- Targets and errors of one step at the new representations. -/
def specAE (m : PredNetV) (a0 : Tensor) (s : StepState) (l : ℕ) : Tensor × Tensor :=
  aeSpec m (specR m s) (effInput m a0 s) l

/-- Target a_l consumed at layer l of one step. -/
def specA (m : PredNetV) (a0 : Tensor) (s : StepState) (l : ℕ) : Tensor :=
  (specAE m a0 s l).1

/-- Error tensor E_l produced at layer l of one step. -/
def specE (m : PredNetV) (a0 : Tensor) (s : StepState) (l : ℕ) : Tensor :=
  (specAE m a0 s l).2

/-- Frame prediction of one step: the clipped layer 0 prediction. -/
def specPred (m : PredNetV) (a0 : Tensor) (s : StepState) : Tensor :=
  ahatSpec m (specR m s) 0

/-- The output captured by the single layer branch of the bottom up loop
after its first n layers have run, over the new representations rs and the
effective input aInit. -/
def captureOf (m : PredNetV) (rs : ℕ → Tensor) (aInit : Tensor) (n : ℕ) :
    Option StepOut :=
  match m.output_layer_num with
  | none => none
  | some l =>
    if l < n then
      match m.output_layer_type with
      | some ty =>
        if ty = "A" then some (StepOut.tensor (aeSpec m rs aInit l).1)
        else if ty = "Ahat" then some (StepOut.tensor (ahatSpec m rs l))
        else if ty = "R" then some (StepOut.tensor (rs l))
        else if ty = "E" then some (StepOut.tensor (aeSpec m rs aInit l).2)
        else none
      | none => none
    else none

/-- The output captured by the single layer branch after the first n
layers of the bottom up loop have run. -/
def specCapture (m : PredNetV) (a0 : Tensor) (s : StepState) (n : ℕ) :
    Option StepOut :=
  captureOf m (specR m s) (effInput m a0 s) n

/-- Frame prediction component of the step result (empty only in the
degenerate zero layer case the constructor cannot produce). -/
def specFrame (m : PredNetV) (a0 : Tensor) (s : StepState) : Tensor :=
  if m.nb_layers = 0 then [] else ahatSpec m (specR m s) 0

/-- The output of one step, claim side, covering the aggregate modes of
prednet.py lines 307 to 317 and the single layer capture. -/
def specOutput (m : PredNetV) (a0 : Tensor) (s : StepState) : Option StepOut :=
  if m.output_layer_type = none then
    if m.output_mode = "prediction" then some (StepOut.tensor (specFrame m a0 s))
    else
      let all_error := (List.range m.nb_layers).map (fun l => meanT (specE m a0 s l))
      if m.output_mode = "error" then some (StepOut.vec all_error)
      else some (StepOut.vec (flatT (specFrame m a0 s) ++ all_error))
  else specCapture m a0 s m.nb_layers

/-- The extra state entries of one step, claim side (prednet.py lines 320
to 321). -/
def specExtra (m : PredNetV) (a0 : Tensor) (s : StepState) : Option (Tensor × ℕ) :=
  match m.extrap_start_time, s.extra with
  | some _, some pt => some (specFrame m a0 s, pt.2 + 1)
  | _, _ => none

/-- The parsed output mode fields a constructed instance can carry: one of
the three aggregate modes with no layer selector, or a single layer
selector with a unit type among R, E, A, Ahat and a layer index below
nb_layers, whose mode string is none of the aggregate ones. -/
def ModeOK (m : PredNetM) : Prop :=
  (m.output_mode = "prediction" ∧ m.output_layer_type = none) ∨
  (m.output_mode = "error" ∧ m.output_layer_type = none) ∨
  (m.output_mode = "all" ∧ m.output_layer_type = none) ∨
  (∃ ty n, m.output_layer_type = some ty ∧ m.output_layer_num = some n ∧
    (ty = "R" ∨ ty = "E" ∨ ty = "A" ∨ ty = "Ahat") ∧ n < m.nb_layers ∧
    m.output_mode ≠ "prediction" ∧ m.output_mode ≠ "error" ∧ m.output_mode ≠ "all")

/-- Boolean shape test for a value level tensor. -/
def isShapeT (t : Tensor) (c h w : ℕ) : Bool :=
  t.length == c && t.all (fun ch => ch.length == h && ch.all (fun r => r.length == w))

/-- Boolean elementwise upper bound test. -/
def tensorLE (t : Tensor) (M : ℚ) : Bool :=
  t.all (fun ch => ch.all (fun r => r.all (fun x => decide (x ≤ M))))

/-- The identity, a stand in for any activation fixing zero. -/
def idQ (x : ℚ) : ℚ := x

/-- A one filter, one input channel, one by one convolution with zero
weight and the given bias. -/
def cOne (b : ℚ) : ConvParams := ⟨[[[[0]]]], [b]⟩

/-- PredNet.build with every learnable parameter zero: each convolution
family is created with the output channel count of prednet.py lines 210,
214 and 218, the built input channel count of lines 228 to 235, and the
configured kernel size lists.  The aggregate error mode is configured and
extrapolation is off. -/
def zeroPredNet (stack R_stack A_filt Ahat_filt R_filt : List ℕ)
    (errA AA lstmA innerA : ℚ → ℚ) (M : ℚ) : PredNetV :=
  let L := stack.length
  { nb_layers := L
    pixel_max := M
    error_activation := errA
    A_activation := AA
    LSTM_activation := lstmA
    LSTM_inner_activation := innerA
    output_mode := "error"
    output_layer_type := none
    output_layer_num := none
    extrap_start_time := none
    conv_i := (List.range L).map (fun l => zeroConv (R_stack.getD l 0)
      (stack.getD l 0 * 2 + R_stack.getD l 0 +
        (if l < L - 1 then R_stack.getD (l + 1) 0 else 0)) (R_filt.getD l 0))
    conv_f := (List.range L).map (fun l => zeroConv (R_stack.getD l 0)
      (stack.getD l 0 * 2 + R_stack.getD l 0 +
        (if l < L - 1 then R_stack.getD (l + 1) 0 else 0)) (R_filt.getD l 0))
    conv_c := (List.range L).map (fun l => zeroConv (R_stack.getD l 0)
      (stack.getD l 0 * 2 + R_stack.getD l 0 +
        (if l < L - 1 then R_stack.getD (l + 1) 0 else 0)) (R_filt.getD l 0))
    conv_o := (List.range L).map (fun l => zeroConv (R_stack.getD l 0)
      (stack.getD l 0 * 2 + R_stack.getD l 0 +
        (if l < L - 1 then R_stack.getD (l + 1) 0 else 0)) (R_filt.getD l 0))
    conv_ahat := (List.range L).map (fun l => zeroConv (stack.getD l 0)
      (R_stack.getD l 0) (Ahat_filt.getD l 0))
    conv_a := (List.range (L - 1)).map (fun l => zeroConv (stack.getD (l + 1) 0)
      (2 * R_stack.getD l 0) (A_filt.getD l 0)) }

/-- The zero state get_initial_state produces (prednet.py lines 149 to
196): zero r and c tensors with R_stack_sizes[l] channels and zero e
tensors with doubled stack_sizes[l] channels, all at the input spatial
size integer divided by 2 ** l. -/
def zeroState (stack R_stack : List ℕ) (H W : ℕ) : StepState :=
  let L := stack.length
  ⟨(List.range L).map (fun l => zeroT (R_stack.getD l 0) (H / 2 ^ l) (W / 2 ^ l)) ++
   (List.range L).map (fun l => zeroT (R_stack.getD l 0) (H / 2 ^ l) (W / 2 ^ l)) ++
   (List.range L).map (fun l => zeroT (2 * stack.getD l 0) (H / 2 ^ l) (W / 2 ^ l)),
   none⟩

/-- A four layer configuration with a deliberately wrong length
R_filt_sizes argument. -/
def c1args : PredNetArgs :=
  { stack_sizes := [3, 48, 96, 192], R_stack_sizes := [3, 48, 96, 192]
    A_filt_sizes := [3, 3, 3], Ahat_filt_sizes := [3, 3, 3, 3], R_filt_sizes := [5]
    pixel_max := 1, error_activation := "relu", A_activation := "relu"
    LSTM_activation := "tanh", LSTM_inner_activation := "hard_sigmoid"
    output_mode := "error", extrap_start_time := none
    data_format := "channels_first", return_sequences := false }

/-- The two layer configuration of the concrete scenario of the spec, with
every list length satisfying the invariants of section 3. -/
def c2args : PredNetArgs :=
  { stack_sizes := [1, 2], R_stack_sizes := [1, 2]
    A_filt_sizes := [3], Ahat_filt_sizes := [3, 3], R_filt_sizes := [3, 3]
    pixel_max := 1, error_activation := "relu", A_activation := "relu"
    LSTM_activation := "tanh", LSTM_inner_activation := "hard_sigmoid"
    output_mode := "error", extrap_start_time := none
    data_format := "channels_first", return_sequences := false }

/-- The instance state __init__ would reach for c2args were R_filt_sizes
not overwritten on line 83, with the error output mode. -/
def c2pn : PredNetM :=
  { stack_sizes := [1, 2], nb_layers := 2, R_stack_sizes := [1, 2]
    A_filt_sizes := [3], Ahat_filt_sizes := [3, 3], R_filt_sizes := [3, 3]
    pixel_max := 1, error_activation := "relu", A_activation := "relu"
    LSTM_activation := "tanh", LSTM_inner_activation := "hard_sigmoid"
    output_mode := "error", output_layer_type := none, output_layer_num := none
    extrap_start_time := none, data_format := "channels_first"
    return_sequences := false }

/-- As c2pn with the single layer mode R1. -/
def c2pnR1 : PredNetM :=
  { c2pn with
    output_mode := "R1"
    output_layer_type := some "R"
    output_layer_num := some 1 }

/-- A four layer configuration whose R_stack_sizes differ from stack_sizes
below the top layer. -/
def c3args : PredNetArgs :=
  { stack_sizes := [1, 2, 2, 2], R_stack_sizes := [2, 2, 2, 2]
    A_filt_sizes := [3, 3, 3], Ahat_filt_sizes := [3, 3, 3, 3]
    R_filt_sizes := [3, 3, 3, 3]
    pixel_max := 1, error_activation := "relu", A_activation := "relu"
    LSTM_activation := "tanh", LSTM_inner_activation := "hard_sigmoid"
    output_mode := "error", extrap_start_time := none
    data_format := "channels_first", return_sequences := false }

/-- The instance __init__ builds from c3args. -/
def c3pn : PredNetM :=
  { stack_sizes := [1, 2, 2, 2], nb_layers := 4, R_stack_sizes := [2, 2, 2, 2]
    A_filt_sizes := [3, 3, 3], Ahat_filt_sizes := [3, 3, 3, 3]
    R_filt_sizes := [3, 3, 3, 3]
    pixel_max := 1, error_activation := "relu", A_activation := "relu"
    LSTM_activation := "tanh", LSTM_inner_activation := "hard_sigmoid"
    output_mode := "error", output_layer_type := none, output_layer_num := none
    extrap_start_time := none, data_format := "channels_first"
    return_sequences := false }

/-- A valid two layer shape level instance with matching stack sizes, used
to instantiate the general shape theorem. -/
def c4wpn : PredNetM :=
  { stack_sizes := [1, 2], nb_layers := 2, R_stack_sizes := [1, 2]
    A_filt_sizes := [3], Ahat_filt_sizes := [3, 3], R_filt_sizes := [3, 3]
    pixel_max := 1, error_activation := "relu", A_activation := "relu"
    LSTM_activation := "tanh", LSTM_inner_activation := "hard_sigmoid"
    output_mode := "R1", output_layer_type := some "R", output_layer_num := some 1
    extrap_start_time := none, data_format := "channels_first"
    return_sequences := false }

/-- A four layer configuration with a single layer output mode, used for
the configuration round trip. -/
def c9args : PredNetArgs :=
  { stack_sizes := [3, 48, 96, 192], R_stack_sizes := [3, 48, 96, 192]
    A_filt_sizes := [3, 3, 3], Ahat_filt_sizes := [3, 3, 3, 3]
    R_filt_sizes := [3, 3, 3, 3]
    pixel_max := 1, error_activation := "relu", A_activation := "relu"
    LSTM_activation := "tanh", LSTM_inner_activation := "hard_sigmoid"
    output_mode := "Ahat2", extrap_start_time := some 5
    data_format := "channels_last", return_sequences := true }

/-- The instance __init__ builds from c9args. -/
def c9pn : PredNetM :=
  { stack_sizes := [3, 48, 96, 192], nb_layers := 4, R_stack_sizes := [3, 48, 96, 192]
    A_filt_sizes := [3, 3, 3], Ahat_filt_sizes := [3, 3, 3, 3]
    R_filt_sizes := [3, 3, 3, 3]
    pixel_max := 1, error_activation := "relu", A_activation := "relu"
    LSTM_activation := "tanh", LSTM_inner_activation := "hard_sigmoid"
    output_mode := "Ahat2", output_layer_type := some "Ahat", output_layer_num := some 2
    extrap_start_time := some 5, data_format := "channels_last"
    return_sequences := true }

/-- A one layer value level instance with extrapolation from step 0 and
the prediction output mode. -/
def c5m : PredNetV :=
  { nb_layers := 1, pixel_max := 1
    error_activation := reluQ, A_activation := reluQ
    LSTM_activation := idQ, LSTM_inner_activation := idQ
    output_mode := "prediction", output_layer_type := none, output_layer_num := none
    extrap_start_time := some 0
    conv_i := [cOne 0], conv_f := [cOne 0], conv_c := [cOne 0], conv_o := [cOne 0]
    conv_ahat := [cOne 0], conv_a := [] }

/-- A one by one, one channel zero tensor. -/
def t11 : Tensor := [[[0]]]

/-- A one by one, two channel zero tensor. -/
def t11e : Tensor := [[[0]], [[0]]]

/-- State carrying a previous prediction different from the supplied
frame, at timestep counter 0. -/
def c5s : StepState := ⟨[t11, t11, t11e], some ([[[5]]], 0)⟩

/-- As c5m but without extrapolation and with an Ahat bias of 2, which
exceeds pixel_max before clipping. -/
def c6m : PredNetV :=
  { c5m with extrap_start_time := none, conv_ahat := [cOne 2] }

/-- Extrapolation free one layer state. -/
def c6s : StepState := ⟨[t11, t11, t11e], none⟩

/-- A one layer instance with extrapolation from step 3, used to check the
state layout of one step. -/
def c7m : PredNetV :=
  { c5m with extrap_start_time := some 3, output_mode := "error" }

/-- One layer state at timestep counter 5. -/
def c7s : StepState := ⟨[t11, t11, t11e], some ([[[5]]], 5)⟩

/-- A two layer instance whose output mode is the top layer target
selector A1. -/
def c10m : PredNetV :=
  { nb_layers := 2, pixel_max := 1
    error_activation := reluQ, A_activation := reluQ
    LSTM_activation := idQ, LSTM_inner_activation := idQ
    output_mode := "A1", output_layer_type := some "A", output_layer_num := some 1
    extrap_start_time := none
    conv_i := [cOne 0, cOne 0], conv_f := [cOne 0, cOne 0]
    conv_c := [cOne 0, cOne 0], conv_o := [cOne 0, cOne 0]
    conv_ahat := [cOne 0, cOne 0], conv_a := [cOne 0] }

/-- A two by two, one channel zero tensor. -/
def t22 : Tensor := [[[0, 0], [0, 0]]]

/-- A two by two, two channel zero tensor. -/
def t22e : Tensor := [[[0, 0], [0, 0]], [[0, 0], [0, 0]]]

/-- Two layer zero state matching c10m at a two by two input. -/
def c10s : StepState := ⟨[t22, t11, t22, t11, t22e, t11e], none⟩

/-- A two layer configuration with the top layer target selector A1 as
output mode. -/
def c10args : PredNetArgs :=
  { c2args with output_mode := "A1" }

/-- C1: the length invariants on R_stack_sizes, A_filt_sizes and
Ahat_filt_sizes are enforced, but a caller supplied R_filt_sizes of the
wrong length is not rejected: for a four layer configuration whose
R_filt_sizes has length one, construction succeeds, because line 83 of the
source replaces the argument with (3, 3, 3, 3) before its length assert. -/
theorem c1_wrong_length_R_filt_sizes_accepted :
    c1args.R_filt_sizes.length ≠ c1args.stack_sizes.length ∧
    (initM c1args).isSome = true := by decide

/-- C2: for the concrete two layer scenario, every list length satisfies
the invariants of section 3, yet construction fails (the overwritten
R_filt_sizes has length 4 while nb_layers is 2); on the instance the
constructor was meant to build, the step output trailing dimensions and
the shape interface do give (batch, 2) for the error mode and
(batch, 2, 2, 2) for mode R1 on a single channel 4 by 4 input. -/
theorem c2_construction_raises_despite_valid_lengths :
    (c2args.R_stack_sizes.length = c2args.stack_sizes.length ∧
     (c2args.A_filt_sizes.length : ℤ) = (c2args.stack_sizes.length : ℤ) - 1 ∧
     c2args.Ahat_filt_sizes.length = c2args.stack_sizes.length ∧
     c2args.R_filt_sizes.length = c2args.stack_sizes.length) ∧
    initM c2args = none ∧
    (stepTrailingOut c2pn (initRSh c2pn 4 4) (initRSh c2pn 4 4) (initESh c2pn 4 4)
      ⟨1, 4, 4⟩ = some [2] ∧
     compute_output_shape c2pn [1, 5, 1, 4, 4] = [1, 2]) ∧
    (stepTrailingOut c2pnR1 (initRSh c2pnR1 4 4) (initRSh c2pnR1 4 4)
      (initESh c2pnR1 4 4) ⟨1, 4, 4⟩ = some [2, 2, 2] ∧
     compute_output_shape c2pnR1 [1, 5, 1, 4, 4] = [1, 2, 2, 2]) := by decide

/-- C3: the A convolution of layer 0 of a validly constructed four layer
instance with stack_sizes (1, 2, 2, 2) and R_stack_sizes (2, 2, 2, 2) is
built to accept 2 R_stack_sizes[0] = 4 input channels (prednet.py line
231), not the 2 stack_sizes[0] = 2 channels of the error tensor E_0 that
step applies it to. -/
theorem c3_a_conv_built_channels_mismatch :
    initM c3args = some c3pn ∧
    aInCh c3pn 0 = 2 * c3pn.R_stack_sizes.getD 0 0 ∧
    eCh c3pn 0 = 2 * c3pn.stack_sizes.getD 0 0 ∧
    aInCh c3pn 0 ≠ 2 * c3pn.stack_sizes.getD 0 0 := by decide

/-- C4 counterexample: on the validly constructed instance c3pn (error
mode, channels first, single channel 8 by 8 frames) the shape interface
returns (1, 4), but a step produces no tensor at all: the layer 0 A
convolution was built for 4 input channels and receives the 2 channel
error tensor, so the claimed equality of interface shape and produced
trailing dimensions fails. -/
theorem c4_claim_counterexample :
    stepTrailingOut c3pn (initRSh c3pn 8 8) (initRSh c3pn 8 8) (initESh c3pn 8 8)
      ⟨1, 8, 8⟩ = none ∧
    compute_output_shape c3pn [1, 5, 1, 8, 8] = [1, 4] ∧
    stepTrailingOut c3pn (initRSh c3pn 8 8) (initRSh c3pn 8 8) (initESh c3pn 8 8)
      ⟨1, 8, 8⟩ ≠
      some ((compute_output_shape c3pn [1, 5, 1, 8, 8]).drop 1) := by decide

/-- C10 counterexample: for a two layer configuration satisfying every
length invariant of section 3, the mode string A1 (the top layer selector
A + str(L - 1)) is in the accepted mode list, yet construction fails,
because the R_filt_sizes overwrite of line 83 rejects every configuration
with nb_layers different from 4. -/
theorem c10_claim_counterexample :
    c10args.output_mode = "A" ++ toString (c10args.stack_sizes.length - 1) ∧
    c10args.output_mode ∈
      default_output_modes ++ layer_output_modes c10args.stack_sizes.length ∧
    initM c10args = none := by decide

/-- __init__ never reads the caller supplied R_filt_sizes (it is
overwritten on line 83), so construction only depends on the remaining
argument fields. -/
theorem initM_fields (a b : PredNetArgs)
    (hs : b.stack_sizes = a.stack_sizes)
    (hr : b.R_stack_sizes = a.R_stack_sizes)
    (hA : b.A_filt_sizes = a.A_filt_sizes)
    (hAh : b.Ahat_filt_sizes = a.Ahat_filt_sizes)
    (hp : b.pixel_max = a.pixel_max)
    (he : b.error_activation = a.error_activation)
    (hAa : b.A_activation = a.A_activation)
    (hL : b.LSTM_activation = a.LSTM_activation)
    (hLi : b.LSTM_inner_activation = a.LSTM_inner_activation)
    (hom : b.output_mode = a.output_mode)
    (hex : b.extrap_start_time = a.extrap_start_time)
    (hdf : b.data_format = a.data_format)
    (hrs : b.return_sequences = a.return_sequences) :
    initM b = initM a := by
  unfold initM
  simp only [hs, hr, hA, hAh, hp, he, hAa, hL, hLi, hom, hex, hdf, hrs]

/-- C9: serializing a validly constructed instance through get_config and
reconstructing from the exported mapping succeeds and returns the very
same configuration state, so the shape interface of the reconstruction
agrees with the original on every input shape. -/
theorem c9_config_roundtrip_shapes (a : PredNetArgs) (m : PredNetM)
    (h : initM a = some m) : initM (getConfigArgs m) = some m := by
  simp only [initM] at h
  split_ifs at h with h1 h2 h3 h4 h5 h6 h7
  all_goals obtain rfl : _ = m := Option.some.inj h
  all_goals refine (initM_fields a _ rfl rfl rfl rfl rfl rfl rfl rfl rfl rfl rfl rfl
    rfl).trans ?_
  all_goals simp only [initM]
  · rw [if_pos h1, if_pos h2, if_pos h3, if_pos h4, if_pos h5, if_pos h6,
      if_pos h7, if_pos h7]
  · rw [if_pos h1, if_pos h2, if_pos h3, if_pos h4, if_pos h5, if_pos h6,
      if_neg h7, if_neg h7]

/-- Witness for C9 at a concrete four layer configuration with the single
layer mode Ahat2, extrapolation from step 5, channels last layout and per
step outputs. -/
theorem c9_config_roundtrip_shapes_witness :
    initM (getConfigArgs c9pn) = some c9pn :=
  c9_config_roundtrip_shapes c9args c9pn (by decide)

/-- Reading a mapped range list at an in range index. -/
theorem getD_map_range {α : Type} (f : ℕ → α) (n l : ℕ) (d : α) (h : l < n) :
    ((List.range n).map f).getD l d = f l := by
  simp [List.getD_eq_getElem?_getD, List.getElem?_map, List.getElem?_range h]

/-- The top down loop of step, folded over the layers n, ..., nb_layers - 1,
produces exactly the claim side cell and representation tensors of those
layers, and hands the upsampled representation of layer n down to layer
n - 1. -/
theorem td_inner (m : PredNetV) (rt ct et : List Tensor) :
    ∀ k n, n + k = m.nb_layers → ∃ ru,
      (List.range' n k).foldr (fun l acc => tdBody m rt ct et acc l) ([], [], []) =
        ((List.range' n k).map (fun l => (crSpecF m rt ct et (m.nb_layers - 1 - l) l).1),
         (List.range' n k).map (fun l => (crSpecF m rt ct et (m.nb_layers - 1 - l) l).2),
         ru) ∧
      (0 < n → n < m.nb_layers →
        ru = up2 (crSpecF m rt ct et (m.nb_layers - 1 - n) n).2) := by
  intro k
  induction k with
  | zero =>
    intro n hn
    exact ⟨[], rfl, fun _ h2 => absurd h2 (by omega)⟩
  | succ k ih =>
    intro n hn
    obtain ⟨ru₁, hfold, hru⟩ := ih (n + 1) (by omega)
    rw [List.range'_succ]
    simp only [List.foldr_cons, hfold, List.map_cons]
    by_cases hcase : n < m.nb_layers - 1
    · have hj : m.nb_layers - 1 - n = (m.nb_layers - 1 - (n + 1)) + 1 := by omega
      have hru₁ : ru₁ = up2 (crSpecF m rt ct et (m.nb_layers - 1 - (n + 1)) (n + 1)).2 :=
        hru (by omega) (by omega)
      refine ⟨if 0 < n then up2 (crSpecF m rt ct et (m.nb_layers - 1 - n) n).2 else ru₁,
        ?_, ?_⟩
      · rw [hj, hru₁]
        simp only [tdBody, crSpecF, if_pos hcase]
      · intro h1 _
        rw [if_pos h1]
    · have hk : k = 0 := by omega
      have hj : m.nb_layers - 1 - n = 0 := by omega
      subst hk
      refine ⟨if 0 < n then up2 (crSpecF m rt ct et (m.nb_layers - 1 - n) n).2 else ru₁,
        ?_, ?_⟩
      · rw [hj]
        simp only [tdBody, crSpecF]
        rw [if_neg hcase]
      · intro h1 _
        rw [if_pos h1]

/-- The top down loop of step computes the claim side cell and
representation lists. -/
theorem td_eq (m : PredNetV) (s : StepState) :
    ((List.range m.nb_layers).reverse.foldl
        (tdBody m (stateR m s) (stateC m s) (stateE m s)) ([], [], [])).1 =
      (List.range m.nb_layers).map (specC m s) ∧
    ((List.range m.nb_layers).reverse.foldl
        (tdBody m (stateR m s) (stateC m s) (stateE m s)) ([], [], [])).2.1 =
      (List.range m.nb_layers).map (specR m s) := by
  obtain ⟨ru, hfold, _⟩ := td_inner m (stateR m s) (stateC m s) (stateE m s)
    m.nb_layers 0 (by omega)
  rw [List.foldl_reverse, List.range_eq_range', hfold]
  exact ⟨rfl, rfl⟩
theorem aeSpec_snd (m : PredNetV) (rs : ℕ → Tensor) (a : Tensor) (l : ℕ) :
    (aeSpec m rs a l).2 = eSpecOf m rs (aeSpec m rs a l).1 l := by
  cases l <;> rfl

theorem bu_inner (m : PredNetV) (rL : List Tensor) (aInit : Tensor) :
    ∀ n, n ≤ m.nb_layers →
      (List.range n).foldl (buBody m rL) (aInit, [], [], none) =
        ((aeSpec m (fun l => rL.getD l []) aInit (min n (m.nb_layers - 1))).1,
         (List.range n).map (fun l => (aeSpec m (fun l => rL.getD l []) aInit l).2),
         (if n = 0 then [] else ahatSpec m (fun l => rL.getD l []) 0),
         captureOf m (fun l => rL.getD l []) aInit n) := by
  intro n
  induction n with
  | zero =>
    intro _
    have hcap : captureOf m (fun l => rL.getD l []) aInit 0 = none := by
      cases hnum : m.output_layer_num with
      | none => simp [captureOf, hnum]
      | some j => simp [captureOf, hnum]
    rw [hcap, Nat.zero_min]
    rfl
  | succ n ih =>
    intro hn
    have hmin : min n (m.nb_layers - 1) = n := by omega
    have hmap : ∀ (g : ℕ → Tensor), (List.range n).map g ++ [g n] =
        (List.range (n + 1)).map g := by
      intro g
      rw [List.range_succ, List.map_append]
      rfl
    rw [List.range_succ, List.foldl_append, ih (by omega), hmin]
    simp only [List.foldl_cons, List.foldl_nil]
    set rs := fun l => rL.getD l [] with hrs
    have hahat : (if n = 0 then
          minScalar (convSame (m.conv_ahat.getD n cp0)
            (if n = 0 then reluQ else m.A_activation) (rL.getD n [])) m.pixel_max
        else convSame (m.conv_ahat.getD n cp0)
            (if n = 0 then reluQ else m.A_activation) (rL.getD n [])) =
        ahatSpec m rs n := by
      simp [ahatSpec, hrs]
    have heitem : mapT m.error_activation
          (subT (ahatSpec m rs n) (aeSpec m rs aInit n).1) ++
        mapT m.error_activation
          (subT (aeSpec m rs aInit n).1 (ahatSpec m rs n)) =
        (aeSpec m rs aInit n).2 := by
      rw [aeSpec_snd]
      rfl
    simp only [buBody]
    rw [hahat, heitem, hmap]
    have hgetd : ((List.range (n + 1)).map
        (fun l => (aeSpec m rs aInit l).2)).getD n [] = (aeSpec m rs aInit n).2 :=
      getD_map_range _ _ _ _ (by omega)
    rw [hgetd]
    have hcap : (if m.output_layer_num = some n then
          match m.output_layer_type with
          | some ty =>
            if ty = "A" then some (StepOut.tensor (aeSpec m rs aInit n).1)
            else if ty = "Ahat" then some (StepOut.tensor (ahatSpec m rs n))
            else if ty = "R" then some (StepOut.tensor (rL.getD n []))
            else if ty = "E" then some (StepOut.tensor (aeSpec m rs aInit n).2)
            else captureOf m rs aInit n
          | none => captureOf m rs aInit n
        else captureOf m rs aInit n) = captureOf m rs aInit (n + 1) := by
      cases hnum : m.output_layer_num with
      | none => simp [captureOf, hnum]
      | some j =>
        by_cases hj : j = n
        · subst hj
          cases hty : m.output_layer_type with
          | none => simp [captureOf, hnum, hty]
          | some ty => simp [captureOf, hnum, hty, hrs]
        · have hne : ¬(some j = some n) := by simp [hj]
          rw [if_neg hne]
          by_cases hlt : j < n
          · have h2 : j < n + 1 := by omega
            simp [captureOf, hnum, hlt, h2]
          · have h2 : ¬(j < n + 1) := by omega
            simp [captureOf, hnum, hlt, h2]
    rw [hcap]
    simp only [Prod.mk.injEq]
    refine ⟨?_, ?_, ?_, trivial⟩
    · by_cases hlt : n < m.nb_layers - 1
      · rw [if_pos hlt]
        have h1 : min (n + 1) (m.nb_layers - 1) = n + 1 := by omega
        rw [h1]
        rfl
      · rw [if_neg hlt]
        have h1 : min (n + 1) (m.nb_layers - 1) = n := by omega
        rw [h1]
    · rw [← hmap (fun l => (aeSpec m rs aInit l).2), List.map_append]
      rfl
    · by_cases hz : n = 0
      · subst hz
        rw [if_pos rfl, if_neg (by omega : ¬(0 + 1 = 0))]
      · rw [if_neg hz, if_neg hz, if_neg (by omega : ¬(n + 1 = 0))]

/-- ahatSpec reads the representations at its own layer only. -/
theorem ahatSpec_congr (m : PredNetV) (rs rs' : ℕ → Tensor) (l : ℕ)
    (h : rs l = rs' l) : ahatSpec m rs l = ahatSpec m rs' l := by
  unfold ahatSpec
  rw [h]

/-- eSpecOf reads the representations at its own layer only. -/
theorem eSpecOf_congr (m : PredNetV) (rs rs' : ℕ → Tensor) (a : Tensor) (l : ℕ)
    (h : rs l = rs' l) : eSpecOf m rs a l = eSpecOf m rs' a l := by
  unfold eSpecOf
  rw [ahatSpec_congr m rs rs' l h]

/-- The bottom up recursion reads the representations of the layers up to
its own. -/
theorem aeSpec_congr (m : PredNetV) (rs rs' : ℕ → Tensor) (a : Tensor) :
    ∀ l, (∀ j, j ≤ l → rs j = rs' j) → aeSpec m rs a l = aeSpec m rs' a l := by
  intro l
  induction l with
  | zero =>
    intro h
    show (a, eSpecOf m rs a 0) = (a, eSpecOf m rs' a 0)
    rw [eSpecOf_congr m rs rs' a 0 (h 0 le_rfl)]
  | succ l ih =>
    intro h
    simp only [aeSpec]
    rw [ih (fun j hj => h j (le_trans hj (Nat.le_succ l))),
      eSpecOf_congr m rs rs' _ (l + 1) (h (l + 1) le_rfl)]

/-- The capture depends on the representations of the layers it has
passed. -/
theorem captureOf_congr (m : PredNetV) (rs rs' : ℕ → Tensor) (a : Tensor) (n : ℕ)
    (h : ∀ j, j < n → rs j = rs' j) :
    captureOf m rs a n = captureOf m rs' a n := by
  cases hnum : m.output_layer_num with
  | none => simp [captureOf, hnum]
  | some j =>
    simp only [captureOf, hnum]
    by_cases hlt : j < n
    · rw [if_pos hlt, if_pos hlt]
      cases m.output_layer_type with
      | none => rfl
      | some ty =>
        rw [aeSpec_congr m rs rs' a j (fun i hi => h i (lt_of_le_of_lt hi hlt)),
          ahatSpec_congr m rs rs' j (h j hlt), h j hlt]
    · rw [if_neg hlt, if_neg hlt]

/-- One call of PredNet.step equals the claim side description: the output
selected by the output mode and the state list of the new representation,
cell and error tensors, with the extrapolation extras. -/
theorem stepV_eq (m : PredNetV) (a0 : Tensor) (s : StepState) :
    stepV m a0 s =
      (specOutput m a0 s,
       ⟨(List.range m.nb_layers).map (specR m s) ++
        (List.range m.nb_layers).map (specC m s) ++
        (List.range m.nb_layers).map (specE m a0 s), specExtra m a0 s⟩) := by
  have htd := td_eq m s
  have hbu := bu_inner m ((List.range m.nb_layers).map (specR m s)) (effInput m a0 s)
    m.nb_layers le_rfl
  have hrsj : ∀ j, j < m.nb_layers →
      ((List.range m.nb_layers).map (specR m s)).getD j [] = specR m s j :=
    fun j hj => getD_map_range _ _ _ _ hj
  have heL : (List.range m.nb_layers).map
        (fun l => (aeSpec m (fun l => ((List.range m.nb_layers).map (specR m s)).getD l [])
          (effInput m a0 s) l).2) =
      (List.range m.nb_layers).map (specE m a0 s) := by
    refine List.map_congr_left (fun l hl => ?_)
    have hl' := List.mem_range.mp hl
    show _ = (aeSpec m (specR m s) (effInput m a0 s) l).2
    rw [aeSpec_congr m _ (specR m s) (effInput m a0 s) l
      (fun j hj => hrsj j (lt_of_le_of_lt hj hl'))]
  have hframe : (if m.nb_layers = 0 then []
        else ahatSpec m (fun l => ((List.range m.nb_layers).map (specR m s)).getD l []) 0) =
      specFrame m a0 s := by
    unfold specFrame
    by_cases h0 : m.nb_layers = 0
    · rw [if_pos h0, if_pos h0]
    · rw [if_neg h0, if_neg h0,
        ahatSpec_congr m _ (specR m s) 0 (hrsj 0 (by omega))]
  have hcapL : captureOf m
        (fun l => ((List.range m.nb_layers).map (specR m s)).getD l [])
        (effInput m a0 s) m.nb_layers = specCapture m a0 s m.nb_layers := by
    unfold specCapture
    exact captureOf_congr m _ _ _ _ (fun j hj => hrsj j hj)
  have hmean : (List.range m.nb_layers).map
        (fun l => meanT (((List.range m.nb_layers).map (specE m a0 s)).getD l [])) =
      (List.range m.nb_layers).map (fun l => meanT (specE m a0 s l)) := by
    refine List.map_congr_left (fun l hl => ?_)
    rw [getD_map_range _ _ _ _ (List.mem_range.mp hl)]
  simp only [stepV]
  rw [htd.1, htd.2, hbu]
  simp only
  rw [hframe, heL, hcapL, hmean]
  unfold specOutput specExtra
  rfl

/-- C7: the state returned by one step is exactly the list of new
representation tensors, then the new cell tensors, then the new error
tensors of layers 0 to nb_layers - 1, extended by the frame prediction and
the incremented timestep counter when extrapolating.  The claim side
definitions specR and specC realize the top down recurrence (gates from
the concatenation of the previous representation and error with, below the
top, the upsampled just computed representation of the layer above; new
cell f times old cell plus i times candidate; new representation o times
the cell activation), and specE the bottom up error recurrence. -/
theorem c7_state_update_recurrence (m : PredNetV) (a0 : Tensor) (s : StepState)
    (hL : 1 ≤ m.nb_layers) :
    (stepV m a0 s).2.core =
      (List.range m.nb_layers).map (specR m s) ++
      (List.range m.nb_layers).map (specC m s) ++
      (List.range m.nb_layers).map (specE m a0 s) ∧
    (stepV m a0 s).2.extra = (match m.extrap_start_time, s.extra with
      | some _, some pt => some (specPred m a0 s, pt.2 + 1)
      | _, _ => none) := by
  rw [stepV_eq]
  refine ⟨rfl, ?_⟩
  show specExtra m a0 s = _
  unfold specExtra
  have hf : specFrame m a0 s = specPred m a0 s := by
    unfold specFrame specPred
    rw [if_neg (by omega)]
  rw [hf]

/-- Witness for C7 on a concrete one layer extrapolating instance. -/
theorem c7_state_update_recurrence_witness :
    (stepV c7m [[[7]]] c7s).2.core =
      (List.range 1).map (specR c7m c7s) ++ (List.range 1).map (specC c7m c7s) ++
      (List.range 1).map (specE c7m [[[7]]] c7s) ∧
    (stepV c7m [[[7]]] c7s).2.extra = some (specPred c7m [[[7]]] c7s, 5 + 1) := by
  have h := c7_state_update_recurrence c7m [[[7]]] c7s (by decide)
  exact ⟨h.1, h.2⟩

/-- C5: with extrapolation from T, a step whose timestep counter t
satisfies T le t is identical to the step fed the carried previous frame
prediction (the supplied frame is ignored), for t below T the effective
input is the supplied frame unchanged, and the next state carries this
step frame prediction with counter t + 1. -/
theorem c5_extrapolation_override (m : PredNetV) (a0 prev : Tensor) (s : StepState)
    (T t : ℕ) (hm : m.extrap_start_time = some T) (hs : s.extra = some (prev, t))
    (hL : 1 ≤ m.nb_layers) :
    (T ≤ t → stepV m a0 s = stepV m prev s) ∧
    (t < T → effInput m a0 s = a0) ∧
    (stepV m a0 s).2.extra = some (specPred m a0 s, t + 1) := by
  have heff : ∀ x : Tensor, effInput m x s = if T ≤ t then prev else x := by
    intro x
    unfold effInput
    rw [hm, hs]
  refine ⟨?_, ?_, ?_⟩
  · intro hT
    have h1 : effInput m a0 s = prev := by rw [heff, if_pos hT]
    have h2 : effInput m prev s = prev := by rw [heff, ite_self]
    simp only [stepV, h1, h2]
  · intro ht
    rw [heff, if_neg (by omega)]
  · rw [stepV_eq]
    show specExtra m a0 s = _
    unfold specExtra
    simp only [hm, hs]
    have hf : specFrame m a0 s = specPred m a0 s := by
      unfold specFrame specPred
      rw [if_neg (by omega)]
    rw [hf]

/-- Witness for C5: at T = 0, t = 0, the step on the supplied frame 7
equals the step on the carried prediction 5. -/
theorem c5_extrapolation_override_witness :
    ((0 : ℕ) ≤ 0 → stepV c5m [[[7]]] c5s = stepV c5m [[[5]]] c5s) ∧
    ((0 : ℕ) < 0 → effInput c5m [[[7]]] c5s = [[[7]]]) ∧
    (stepV c5m [[[7]]] c5s).2.extra = some (specPred c5m [[[7]]] c5s, 0 + 1) :=
  c5_extrapolation_override c5m [[[7]]] [[[5]]] c5s 0 0 rfl rfl (by decide)

/-- Every entry of a tensor clipped from above by M is at most M. -/
theorem tensorLE_minScalar (t : Tensor) (M : ℚ) : tensorLE (minScalar t M) M = true := by
  simp only [tensorLE, minScalar, mapT, List.all_eq_true, decide_eq_true_eq]
  intro ch hch r hr x hx
  obtain ⟨ch0, _, rfl⟩ := List.mem_map.mp hch
  obtain ⟨r0, _, rfl⟩ := List.mem_map.mp hr
  obtain ⟨x0, _, rfl⟩ := List.mem_map.mp hx
  exact min_le_right x0 M

/-- C6: in prediction mode a step outputs exactly the recorded frame
prediction (K.minimum of the layer 0 Ahat convolution and pixel_max), and
that tensor never exceeds pixel_max elementwise, whatever values the
convolution produced. -/
theorem c6_prediction_clipped_by_pixel_max (m : PredNetV) (a0 : Tensor)
    (s : StepState) (ht : m.output_layer_type = none)
    (hp : m.output_mode = "prediction") :
    (stepV m a0 s).1 = some (StepOut.tensor (specFrame m a0 s)) ∧
    tensorLE (specFrame m a0 s) m.pixel_max = true := by
  constructor
  · rw [stepV_eq]
    show specOutput m a0 s = _
    unfold specOutput
    rw [if_pos ht, if_pos hp]
  · unfold specFrame
    by_cases h0 : m.nb_layers = 0
    · rw [if_pos h0]
      rfl
    · rw [if_neg h0]
      unfold ahatSpec
      rw [if_pos rfl]
      exact tensorLE_minScalar _ _

/-- Witness for C6 on a one layer instance whose Ahat convolution bias 2
exceeds pixel_max 1 before clipping. -/
theorem c6_prediction_clipped_by_pixel_max_witness :
    (stepV c6m [[[0]]] c6s).1 = some (StepOut.tensor (specFrame c6m [[[0]]] c6s)) ∧
    tensorLE (specFrame c6m [[[0]]] c6s) c6m.pixel_max = true :=
  c6_prediction_clipped_by_pixel_max c6m [[[0]]] c6s rfl rfl

/-- C10 (amended): the top layer target selector A + str(nb_layers - 1) is
in the generated mode list, and on an instance configured with it one step
outputs the top layer target a_{L-1}: the max pooled output of the layer
L - 2 A convolution applied to E_{L-2}. -/
theorem c10_top_layer_A_mode (m : PredNetV) (a0 : Tensor) (s : StepState)
    (hL : 2 ≤ m.nb_layers) (ht : m.output_layer_type = some "A")
    (hn : m.output_layer_num = some (m.nb_layers - 1)) :
    ("A" ++ toString (m.nb_layers - 1)) ∈ layer_output_modes m.nb_layers ∧
    (stepV m a0 s).1 = some (StepOut.tensor (specA m a0 s (m.nb_layers - 1))) ∧
    specA m a0 s (m.nb_layers - 1) =
      pool2 (convSame (m.conv_a.getD (m.nb_layers - 2) cp0) m.A_activation
        (specE m a0 s (m.nb_layers - 2))) := by
  refine ⟨?_, ?_, ?_⟩
  · unfold layer_output_modes
    refine List.mem_flatMap.mpr ⟨m.nb_layers - 1, List.mem_range.mpr (by omega), ?_⟩
    simp
  · rw [stepV_eq]
    show specOutput m a0 s = _
    unfold specOutput
    rw [if_neg (by simp [ht])]
    unfold specCapture
    simp only [captureOf, hn, ht, if_pos (by omega : m.nb_layers - 1 < m.nb_layers)]
    rfl
  · have h2 : m.nb_layers - 1 = (m.nb_layers - 2) + 1 := by omega
    rw [h2]
    rfl

/-- Witness for C10 on a concrete two layer instance in mode A1. -/
theorem c10_top_layer_A_mode_witness :
    ("A" ++ toString (2 - 1)) ∈ layer_output_modes 2 ∧
    (stepV c10m [[[1, 0], [0, 0]]] c10s).1 =
      some (StepOut.tensor (specA c10m [[[1, 0], [0, 0]]] c10s 1)) ∧
    specA c10m [[[1, 0], [0, 0]]] c10s 1 =
      pool2 (convSame (c10m.conv_a.getD 0 cp0) c10m.A_activation
        (specE c10m [[[1, 0], [0, 0]]] c10s 0)) := by
  have h := c10_top_layer_A_mode c10m [[[1, 0], [0, 0]]] c10s (by decide) rfl rfl
  exact ⟨h.1, h.2.1, h.2.2⟩

theorem zeroT_eq_constT (c h w : ℕ) : zeroT c h w = constT c h w 0 := rfl

theorem mapT_const (f : ℚ → ℚ) (c h w : ℕ) (v : ℚ) :
    mapT f (constT c h w v) = constT c h w (f v) := by
  simp [mapT, constT, List.map_replicate]

theorem zipT_const (f : ℚ → ℚ → ℚ) (c h w : ℕ) (v u : ℚ) :
    zipT f (constT c h w v) (constT c h w u) = constT c h w (f v u) := by
  simp [zipT, constT, List.zipWith_replicate]

theorem flatMap_dup {α : Type} (n : ℕ) (x : α) :
    (List.replicate n x).flatMap (fun y => [y, y]) = List.replicate (2 * n) x := by
  induction n with
  | zero => rfl
  | succ n ih =>
    rw [List.replicate_succ, List.flatMap_cons, ih,
      show 2 * (n + 1) = (2 * n) + 1 + 1 by omega,
      List.replicate_succ, List.replicate_succ]
    rfl

theorem up2_const (c h w : ℕ) (v : ℚ) :
    up2 (constT c h w v) = constT c (2 * h) (2 * w) v := by
  simp only [up2, constT, List.map_replicate, flatMap_dup]

theorem pairUp_replicate {α : Type} (n : ℕ) (x : α) :
    pairUp (List.replicate (2 * n) x) = List.replicate n (x, x) := by
  induction n with
  | zero => rfl
  | succ n ih =>
    rw [show 2 * (n + 1) = (2 * n) + 1 + 1 by omega, List.replicate_succ,
      List.replicate_succ, List.replicate_succ]
    show (x, x) :: pairUp (List.replicate (2 * n) x) = _
    rw [ih]

theorem zip_replicate_same {α β : Type} (n : ℕ) (x : α) (y : β) :
    List.zip (List.replicate n x) (List.replicate n y) = List.replicate n (x, y) := by
  induction n with
  | zero => rfl
  | succ n ih =>
    rw [List.replicate_succ, List.replicate_succ, List.zip_cons_cons, ih,
      List.replicate_succ]

theorem poolRowPair_const (w : ℕ) (v : ℚ) :
    poolRowPair (List.replicate (2 * w) v) (List.replicate (2 * w) v) =
      List.replicate w v := by
  rw [poolRowPair, zip_replicate_same, pairUp_replicate, List.map_replicate]
  simp

theorem pool2_const (c h w : ℕ) (v : ℚ) :
    pool2 (constT c (2 * h) (2 * w) v) = constT c h w v := by
  simp only [pool2, constT, List.map_replicate, pairUp_replicate,
    poolRowPair_const]

theorem chanDims_const_append (c h w : ℕ) (v : ℚ) (rest : Tensor) (hc : 0 < c)
    (hh : 0 < h) : chanDims (constT c h w v ++ rest) = (h, w) := by
  cases c with
  | zero => omega
  | succ c =>
    cases h with
    | zero => omega
    | succ h =>
      simp [chanDims, constT, List.replicate_succ]

theorem chanDims_const (c h w : ℕ) (v : ℚ) (hc : 0 < c) (hh : 0 < h) :
    chanDims (constT c h w v) = (h, w) := by
  have := chanDims_const_append c h w v [] hc hh
  rwa [List.append_nil] at this

theorem convEntry_zero (i k : ℕ) (inp : Tensor) (pr pc r c : ℕ) :
    convEntry (List.replicate i (List.replicate k (List.replicate k (0 : ℚ))))
      0 inp pr pc r c = 0 := by
  unfold convEntry
  rw [zero_add]
  apply List.sum_eq_zero
  intro x hx
  obtain ⟨p, hp, rfl⟩ := List.mem_map.mp hx
  apply List.sum_eq_zero
  intro y hy
  obtain ⟨q, hq, rfl⟩ := List.mem_map.mp hy
  apply List.sum_eq_zero
  intro z hz
  obtain ⟨u, hu, rfl⟩ := List.mem_map.mp hz
  have hp1 : p.1 = List.replicate k (List.replicate k (0 : ℚ)) :=
    List.eq_of_mem_replicate (List.mem_zip hp).1
  have hq2 : q.2 = List.replicate k (0 : ℚ) := by
    rw [hp1] at hq
    have h2 := List.mem_enum_iff_getElem?.mp hq
    rcases Nat.lt_or_ge q.1 k with hlt | hge
    · rw [List.getElem?_replicate, if_pos hlt] at h2
      exact (Option.some.inj h2).symm
    · rw [List.getElem?_replicate, if_neg (by omega)] at h2
      exact absurd h2 (by simp)
  have hu2 : u.2 = 0 := by
    rw [hq2] at hu
    have h2 := List.mem_enum_iff_getElem?.mp hu
    rcases Nat.lt_or_ge u.1 k with hlt | hge
    · rw [List.getElem?_replicate, if_pos hlt] at h2
      exact (Option.some.inj h2).symm
    · rw [List.getElem?_replicate, if_neg (by omega)] at h2
      exact absurd h2 (by simp)
  rw [hu2, zero_mul]

theorem convSame_zero (o i k : ℕ) (act : ℚ → ℚ) (t : Tensor) :
    convSame (zeroConv o i k) act t = constT o (chanDims t).1 (chanDims t).2 (act 0) := by
  have hrow : ∀ (pr pc r : ℕ), (List.range (chanDims t).2).map
      (fun c => act (convEntry
        (List.replicate i (List.replicate k (List.replicate k (0 : ℚ))))
        0 t pr pc r c)) = List.replicate (chanDims t).2 (act 0) := by
    intro pr pc r
    have h1 : ∀ c ∈ List.range (chanDims t).2,
        act (convEntry (List.replicate i (List.replicate k (List.replicate k (0 : ℚ))))
          0 t pr pc r c) = act 0 := by
      intro c _
      rw [convEntry_zero]
    rw [List.map_congr_left h1, List.map_const', List.length_range]
  simp only [convSame, zeroConv]
  rw [zip_replicate_same, List.map_replicate]
  show List.replicate o _ = List.replicate o _
  refine congrArg (List.replicate o) ?_
  have h2 : ∀ r ∈ List.range (chanDims t).1,
      ((List.range (chanDims t).2).map
        (fun c => act (convEntry
          (List.replicate i (List.replicate k (List.replicate k (0 : ℚ))))
          0 t (((((List.replicate o (List.replicate i (List.replicate k
            (List.replicate k (0 : ℚ))))).headD []).headD []).length - 1) / 2)
          ((((((List.replicate o (List.replicate i (List.replicate k
            (List.replicate k (0 : ℚ))))).headD []).headD []).headD []).length - 1) / 2)
          r c))) = List.replicate (chanDims t).2 (act 0) :=
    fun r _ => hrow _ _ r
  rw [List.map_congr_left h2, List.map_const', List.length_range]

theorem isShapeT_iff (t : Tensor) (c h w : ℕ) :
    isShapeT t c h w = true ↔
      t.length = c ∧ ∀ ch ∈ t, ch.length = h ∧ ∀ r ∈ ch, r.length = w := by
  simp [isShapeT, List.all_eq_true]

theorem isShapeT_const (c h w : ℕ) (v : ℚ) : isShapeT (constT c h w v) c h w = true := by
  rw [isShapeT_iff]
  refine ⟨by simp [constT], fun ch hch => ?_⟩
  rw [List.eq_of_mem_replicate hch]
  refine ⟨by simp, fun r hr => ?_⟩
  rw [List.eq_of_mem_replicate hr]
  simp

theorem chanDims_mapT_sub_const (f : ℚ → ℚ) (g : ℚ → ℚ → ℚ) (c h w : ℕ) (v : ℚ)
    (t : Tensor) (rest : Tensor) (ht : isShapeT t c h w = true) (hc : 0 < c)
    (hh : 0 < h) :
    chanDims (mapT f (zipT g (constT c h w v) t) ++ rest) = (h, w) := by
  obtain ⟨hlen, hall⟩ := (isShapeT_iff t c h w).mp ht
  cases t with
  | nil => simp at hlen; omega
  | cons ch t' =>
    obtain ⟨hchlen, hrows⟩ := hall ch (List.mem_cons_self ch t')
    cases ch with
    | nil => simp at hchlen; omega
    | cons r ch' =>
      obtain ⟨c', rfl⟩ : ∃ c', c = c' + 1 := ⟨c - 1, by omega⟩
      obtain ⟨h', rfl⟩ : ∃ h', h = h' + 1 := ⟨h - 1, by omega⟩
      have hrlen : r.length = w := (hrows r (List.mem_cons_self r ch')).symm ▸ rfl
      simp only [constT, List.replicate_succ, zipT, mapT, List.zipWith_cons_cons,
        List.map_cons, List.cons_append, chanDims, List.headD_cons]
      simp only [Prod.mk.injEq]
      refine ⟨?_, ?_⟩
      · simp only [List.length_cons, List.length_map, List.length_zipWith,
          List.length_replicate]
        simp only [List.length_cons] at hchlen
        omega
      · simp only [List.length_map, List.length_zipWith, List.length_replicate, hrlen]
        omega

theorem div_pow_double (H l : ℕ) (hd : 2 ^ (l + 1) ∣ H) :
    2 * (H / 2 ^ (l + 1)) = H / 2 ^ l := by
  obtain ⟨q, rfl⟩ := hd
  rw [Nat.mul_div_cancel_left _ (by positivity), pow_succ, mul_assoc,
    Nat.mul_div_cancel_left _ (by positivity)]

theorem div_pow_pos (H l L : ℕ) (hd : 2 ^ (L - 1) ∣ H) (hH : 0 < H)
    (hl : l ≤ L - 1) : 0 < H / 2 ^ l :=
  Nat.div_pos (Nat.le_of_dvd hH (dvd_trans (pow_dvd_pow 2 hl) hd)) (by positivity)

section ZeroParam

variable (stack R_stack A_filt Ahat_filt R_filt : List ℕ)
variable (errA AA lstmA innerA : ℚ → ℚ) (M : ℚ) (H W : ℕ)

theorem zeroState_stateR (l : ℕ) (hl : l < stack.length) :
    (stateR (zeroPredNet stack R_stack A_filt Ahat_filt R_filt errA AA lstmA innerA M)
      (zeroState stack R_stack H W)).getD l [] =
      zeroT (R_stack.getD l 0) (H / 2 ^ l) (W / 2 ^ l) := by
  show ((zeroState stack R_stack H W).core.take stack.length).getD l [] = _
  unfold zeroState
  simp only
  rw [List.append_assoc, List.take_left' (by simp), getD_map_range _ _ _ _ hl]

theorem zeroState_stateC (l : ℕ) (hl : l < stack.length) :
    (stateC (zeroPredNet stack R_stack A_filt Ahat_filt R_filt errA AA lstmA innerA M)
      (zeroState stack R_stack H W)).getD l [] =
      zeroT (R_stack.getD l 0) (H / 2 ^ l) (W / 2 ^ l) := by
  show (((zeroState stack R_stack H W).core.drop stack.length).take
    stack.length).getD l [] = _
  unfold zeroState
  simp only
  rw [List.append_assoc, List.drop_left' (by simp), List.take_left' (by simp),
    getD_map_range _ _ _ _ hl]

theorem zeroState_stateE (l : ℕ) (hl : l < stack.length) :
    (stateE (zeroPredNet stack R_stack A_filt Ahat_filt R_filt errA AA lstmA innerA M)
      (zeroState stack R_stack H W)).getD l [] =
      zeroT (2 * stack.getD l 0) (H / 2 ^ l) (W / 2 ^ l) := by
  show (((zeroState stack R_stack H W).core.drop
    (2 * stack.length)).take stack.length).getD l [] = _
  unfold zeroState
  simp only
  rw [List.drop_left' (by simp; omega), List.take_of_length_le (by simp),
    getD_map_range _ _ _ _ hl]

theorem crSpecF_zeroPredNet (hR : R_stack.length = stack.length)
    (hpos : ∀ l, l < stack.length → 0 < stack.getD l 0 ∧ 0 < R_stack.getD l 0)
    (hT0 : lstmA 0 = 0)
    (hdH : 2 ^ (stack.length - 1) ∣ H) (hdW : 2 ^ (stack.length - 1) ∣ W)
    (hH : 0 < H) (hW : 0 < W) :
    ∀ k l, l < stack.length → k = stack.length - 1 - l →
      crSpecF (zeroPredNet stack R_stack A_filt Ahat_filt R_filt errA AA lstmA innerA M)
        (stateR (zeroPredNet stack R_stack A_filt Ahat_filt R_filt errA AA lstmA innerA M)
          (zeroState stack R_stack H W))
        (stateC (zeroPredNet stack R_stack A_filt Ahat_filt R_filt errA AA lstmA innerA M)
          (zeroState stack R_stack H W))
        (stateE (zeroPredNet stack R_stack A_filt Ahat_filt R_filt errA AA lstmA innerA M)
          (zeroState stack R_stack H W)) k l =
      (zeroT (R_stack.getD l 0) (H / 2 ^ l) (W / 2 ^ l),
       zeroT (R_stack.getD l 0) (H / 2 ^ l) (W / 2 ^ l)) := by
  intro k
  induction k with
  | zero =>
    intro l hl hk
    have hhpos : 0 < H / 2 ^ l := div_pow_pos H l stack.length hdH hH (by omega)
    simp only [crSpecF]
    rw [zeroState_stateR stack R_stack A_filt Ahat_filt R_filt errA AA lstmA innerA
        M H W l hl,
      zeroState_stateC stack R_stack A_filt Ahat_filt R_filt errA AA lstmA innerA
        M H W l hl,
      zeroState_stateE stack R_stack A_filt Ahat_filt R_filt errA AA lstmA innerA
        M H W l hl]
    have hci : (zeroPredNet stack R_stack A_filt Ahat_filt R_filt errA AA lstmA innerA
        M).conv_i.getD l cp0 = zeroConv (R_stack.getD l 0)
          (stack.getD l 0 * 2 + R_stack.getD l 0 +
            (if l < stack.length - 1 then R_stack.getD (l + 1) 0 else 0))
          (R_filt.getD l 0) := by
      show ((List.range stack.length).map _).getD l cp0 = _
      exact getD_map_range _ _ _ cp0 hl
    have hcf : (zeroPredNet stack R_stack A_filt Ahat_filt R_filt errA AA lstmA innerA
        M).conv_f.getD l cp0 = zeroConv (R_stack.getD l 0)
          (stack.getD l 0 * 2 + R_stack.getD l 0 +
            (if l < stack.length - 1 then R_stack.getD (l + 1) 0 else 0))
          (R_filt.getD l 0) := by
      show ((List.range stack.length).map _).getD l cp0 = _
      exact getD_map_range _ _ _ cp0 hl
    have hcc : (zeroPredNet stack R_stack A_filt Ahat_filt R_filt errA AA lstmA innerA
        M).conv_c.getD l cp0 = zeroConv (R_stack.getD l 0)
          (stack.getD l 0 * 2 + R_stack.getD l 0 +
            (if l < stack.length - 1 then R_stack.getD (l + 1) 0 else 0))
          (R_filt.getD l 0) := by
      show ((List.range stack.length).map _).getD l cp0 = _
      exact getD_map_range _ _ _ cp0 hl
    have hco : (zeroPredNet stack R_stack A_filt Ahat_filt R_filt errA AA lstmA innerA
        M).conv_o.getD l cp0 = zeroConv (R_stack.getD l 0)
          (stack.getD l 0 * 2 + R_stack.getD l 0 +
            (if l < stack.length - 1 then R_stack.getD (l + 1) 0 else 0))
          (R_filt.getD l 0) := by
      show ((List.range stack.length).map _).getD l cp0 = _
      exact getD_map_range _ _ _ cp0 hl
    rw [hci, hcf, hcc, hco]
    simp only [List.flatten_cons, List.flatten_nil, List.append_nil]
    simp only [convSame_zero]
    have hch : chanDims (zeroT (R_stack.getD l 0) (H / 2 ^ l) (W / 2 ^ l) ++
        zeroT (2 * stack.getD l 0) (H / 2 ^ l) (W / 2 ^ l)) =
        (H / 2 ^ l, W / 2 ^ l) := by
      rw [zeroT_eq_constT]
      exact chanDims_const_append _ _ _ _ _ (hpos l hl).2 hhpos
    rw [hch]
    simp only [zeroPredNet, zeroT_eq_constT]
    simp only [mulT, addT, mapT_const, zipT_const, hT0, mul_zero, zero_mul,
      add_zero, zero_add, zipT_const, mapT_const]
  | succ k ih =>
    intro l hl hk
    have hhpos : 0 < H / 2 ^ l := div_pow_pos H l stack.length hdH hH (by omega)
    have hlt : l < stack.length - 1 := by omega
    simp only [crSpecF]
    have hnb : (zeroPredNet stack R_stack A_filt Ahat_filt R_filt errA AA lstmA innerA
        M).nb_layers = stack.length := rfl
    rw [hnb, if_pos hlt,
      ih (l + 1) (by omega) (by omega),
      zeroState_stateR stack R_stack A_filt Ahat_filt R_filt errA AA lstmA innerA
        M H W l hl,
      zeroState_stateC stack R_stack A_filt Ahat_filt R_filt errA AA lstmA innerA
        M H W l hl,
      zeroState_stateE stack R_stack A_filt Ahat_filt R_filt errA AA lstmA innerA
        M H W l hl]
    have hup : up2 (zeroT (R_stack.getD (l + 1) 0) (H / 2 ^ (l + 1)) (W / 2 ^ (l + 1))) =
        zeroT (R_stack.getD (l + 1) 0) (H / 2 ^ l) (W / 2 ^ l) := by
      rw [zeroT_eq_constT, up2_const,
        div_pow_double H l (dvd_trans (pow_dvd_pow 2 (by omega)) hdH),
        div_pow_double W l (dvd_trans (pow_dvd_pow 2 (by omega)) hdW)]
      rfl
    rw [hup]
    have hci : (zeroPredNet stack R_stack A_filt Ahat_filt R_filt errA AA lstmA innerA
        M).conv_i.getD l cp0 = zeroConv (R_stack.getD l 0)
          (stack.getD l 0 * 2 + R_stack.getD l 0 +
            (if l < stack.length - 1 then R_stack.getD (l + 1) 0 else 0))
          (R_filt.getD l 0) := by
      show ((List.range stack.length).map _).getD l cp0 = _
      exact getD_map_range _ _ _ cp0 hl
    have hcf : (zeroPredNet stack R_stack A_filt Ahat_filt R_filt errA AA lstmA innerA
        M).conv_f.getD l cp0 = zeroConv (R_stack.getD l 0)
          (stack.getD l 0 * 2 + R_stack.getD l 0 +
            (if l < stack.length - 1 then R_stack.getD (l + 1) 0 else 0))
          (R_filt.getD l 0) := by
      show ((List.range stack.length).map _).getD l cp0 = _
      exact getD_map_range _ _ _ cp0 hl
    have hcc : (zeroPredNet stack R_stack A_filt Ahat_filt R_filt errA AA lstmA innerA
        M).conv_c.getD l cp0 = zeroConv (R_stack.getD l 0)
          (stack.getD l 0 * 2 + R_stack.getD l 0 +
            (if l < stack.length - 1 then R_stack.getD (l + 1) 0 else 0))
          (R_filt.getD l 0) := by
      show ((List.range stack.length).map _).getD l cp0 = _
      exact getD_map_range _ _ _ cp0 hl
    have hco : (zeroPredNet stack R_stack A_filt Ahat_filt R_filt errA AA lstmA innerA
        M).conv_o.getD l cp0 = zeroConv (R_stack.getD l 0)
          (stack.getD l 0 * 2 + R_stack.getD l 0 +
            (if l < stack.length - 1 then R_stack.getD (l + 1) 0 else 0))
          (R_filt.getD l 0) := by
      show ((List.range stack.length).map _).getD l cp0 = _
      exact getD_map_range _ _ _ cp0 hl
    rw [hci, hcf, hcc, hco]
    simp only [List.cons_append, List.nil_append, List.flatten_cons,
      List.flatten_nil, List.append_nil]
    simp only [convSame_zero]
    have hch : chanDims (zeroT (R_stack.getD l 0) (H / 2 ^ l) (W / 2 ^ l) ++
        (zeroT (2 * stack.getD l 0) (H / 2 ^ l) (W / 2 ^ l) ++
          zeroT (R_stack.getD (l + 1) 0) (H / 2 ^ l) (W / 2 ^ l))) =
        (H / 2 ^ l, W / 2 ^ l) := by
      rw [zeroT_eq_constT]
      exact chanDims_const_append _ _ _ _ _ (hpos l hl).2 hhpos
    rw [hch]
    simp only [zeroPredNet, zeroT_eq_constT]
    simp only [mulT, addT, mapT_const, zipT_const, hT0, mul_zero, zero_mul,
      add_zero, zero_add]

theorem specR_zeroPredNet (hR : R_stack.length = stack.length)
    (hpos : ∀ l, l < stack.length → 0 < stack.getD l 0 ∧ 0 < R_stack.getD l 0)
    (hT0 : lstmA 0 = 0)
    (hdH : 2 ^ (stack.length - 1) ∣ H) (hdW : 2 ^ (stack.length - 1) ∣ W)
    (hH : 0 < H) (hW : 0 < W) (l : ℕ) (hl : l < stack.length) :
    specR (zeroPredNet stack R_stack A_filt Ahat_filt R_filt errA AA lstmA innerA M)
      (zeroState stack R_stack H W) l =
      zeroT (R_stack.getD l 0) (H / 2 ^ l) (W / 2 ^ l) := by
  unfold specR
  have hnb : (zeroPredNet stack R_stack A_filt Ahat_filt R_filt errA AA lstmA innerA
      M).nb_layers = stack.length := rfl
  rw [hnb, crSpecF_zeroPredNet stack R_stack A_filt Ahat_filt R_filt errA AA lstmA
    innerA M H W hR hpos hT0 hdH hdW hH hW (stack.length - 1 - l) l hl rfl]

theorem ahatSpec_zeroPredNet (hR : R_stack.length = stack.length)
    (hpos : ∀ l, l < stack.length → 0 < stack.getD l 0 ∧ 0 < R_stack.getD l 0)
    (hA0 : AA 0 = 0) (hT0 : lstmA 0 = 0) (hM : 0 ≤ M)
    (hdH : 2 ^ (stack.length - 1) ∣ H) (hdW : 2 ^ (stack.length - 1) ∣ W)
    (hH : 0 < H) (hW : 0 < W) (l : ℕ) (hl : l < stack.length) :
    ahatSpec (zeroPredNet stack R_stack A_filt Ahat_filt R_filt errA AA lstmA innerA M)
      (specR (zeroPredNet stack R_stack A_filt Ahat_filt R_filt errA AA lstmA innerA M)
        (zeroState stack R_stack H W)) l =
      zeroT (stack.getD l 0) (H / 2 ^ l) (W / 2 ^ l) := by
  have hhpos : 0 < H / 2 ^ l := div_pow_pos H l stack.length hdH hH (by omega)
  have hca : (zeroPredNet stack R_stack A_filt Ahat_filt R_filt errA AA lstmA innerA
      M).conv_ahat.getD l cp0 = zeroConv (stack.getD l 0) (R_stack.getD l 0)
        (Ahat_filt.getD l 0) := by
    show ((List.range stack.length).map _).getD l cp0 = _
    exact getD_map_range _ _ _ cp0 hl
  have haa : (zeroPredNet stack R_stack A_filt Ahat_filt R_filt errA AA lstmA innerA
      M).A_activation = AA := rfl
  have hpm : (zeroPredNet stack R_stack A_filt Ahat_filt R_filt errA AA lstmA innerA
      M).pixel_max = M := rfl
  simp only [ahatSpec, haa, hpm]
  rw [hca, specR_zeroPredNet stack R_stack A_filt Ahat_filt R_filt errA AA lstmA
    innerA M H W hR hpos hT0 hdH hdW hH hW l hl, convSame_zero]
  simp only [zeroT_eq_constT]
  rw [chanDims_const _ _ _ _ (hpos l hl).2 hhpos]
  by_cases h0 : l = 0
  · subst h0
    have hr0 : reluQ 0 = 0 := by simp [reluQ]
    simp only [eq_self_iff_true, if_true, minScalar, mapT_const, hr0]
    rw [min_eq_left hM]
  · simp only [if_neg h0, hA0]


/-- C8: at the first step with every learnable parameter zero and the all
zero initial state, the prediction of every layer is the zero tensor (the
gate convolutions output a constant activation of zero input, yet the cell
stays zero because the LSTM activation fixes zero, so the Ahat convolution
sees a zero representation and its zero weights and bias give act 0 = 0),
and the error tensor of every layer l is
error_activation(0 - a_l) concat error_activation(a_l - 0) along the
channel axis, where the layer 0 target a_0 is the input frame. -/
theorem c8_zero_parameter_first_step_error
    (m : PredNetV) (s : StepState) (a : Tensor)
    (hm : m = zeroPredNet stack R_stack A_filt Ahat_filt R_filt errA AA lstmA innerA M)
    (hs : s = zeroState stack R_stack H W)
    (hR : R_stack.length = stack.length)
    (hpos : ∀ l, l < stack.length → 0 < stack.getD l 0 ∧ 0 < R_stack.getD l 0)
    (hA0 : AA 0 = 0) (hT0 : lstmA 0 = 0) (hM : 0 ≤ M)
    (hdH : 2 ^ (stack.length - 1) ∣ H) (hdW : 2 ^ (stack.length - 1) ∣ W)
    (hH : 0 < H) (hW : 0 < W) :
    (List.range stack.length).map (fun l => ahatSpec m (specR m s) l) =
      (List.range stack.length).map (fun l =>
        zeroT (stack.getD l 0) (H / 2 ^ l) (W / 2 ^ l)) ∧
    (stepV m a s).2.core.drop (2 * stack.length) =
      (List.range stack.length).map (fun l =>
        mapT errA (subT (zeroT (stack.getD l 0) (H / 2 ^ l) (W / 2 ^ l))
          (specA m a s l)) ++
        mapT errA (subT (specA m a s l)
          (zeroT (stack.getD l 0) (H / 2 ^ l) (W / 2 ^ l)))) ∧
    specA m a s 0 = a := by
  subst hm hs
  have hnb : (zeroPredNet stack R_stack A_filt Ahat_filt R_filt errA AA lstmA innerA
      M).nb_layers = stack.length := rfl
  have herr : (zeroPredNet stack R_stack A_filt Ahat_filt R_filt errA AA lstmA innerA
      M).error_activation = errA := rfl
  refine ⟨?_, ?_, ?_⟩
  · exact List.map_congr_left (fun l hl =>
      ahatSpec_zeroPredNet stack R_stack A_filt Ahat_filt R_filt errA AA lstmA innerA
        M H W hR hpos hA0 hT0 hM hdH hdW hH hW l (List.mem_range.mp hl))
  · rw [stepV_eq]
    dsimp only
    rw [hnb,
      List.drop_left' (by
        simp only [List.length_append, List.length_map, List.length_range]
        omega)]
    refine List.map_congr_left (fun l hl0 => ?_)
    have hl := List.mem_range.mp hl0
    simp only [specE, specAE]
    rw [aeSpec_snd]
    have hsa : (aeSpec (zeroPredNet stack R_stack A_filt Ahat_filt R_filt errA AA
        lstmA innerA M)
        (specR (zeroPredNet stack R_stack A_filt Ahat_filt R_filt errA AA lstmA
          innerA M) (zeroState stack R_stack H W))
        (effInput (zeroPredNet stack R_stack A_filt Ahat_filt R_filt errA AA lstmA
          innerA M) a (zeroState stack R_stack H W)) l).1 =
        specA (zeroPredNet stack R_stack A_filt Ahat_filt R_filt errA AA lstmA
          innerA M) a (zeroState stack R_stack H W) l := rfl
    rw [hsa]
    simp only [eSpecOf, herr]
    rw [ahatSpec_zeroPredNet stack R_stack A_filt Ahat_filt R_filt errA AA lstmA
      innerA M H W hR hpos hA0 hT0 hM hdH hdW hH hW l hl]
  · rfl


end ZeroParam

/-- Witness for C8: a two layer instance with unit channel counts, a two by
two input frame and pixel_max one. -/
theorem c8_zero_parameter_first_step_error_witness :
    (List.range ([1, 1] : List ℕ).length).map (fun l =>
      ahatSpec (zeroPredNet [1, 1] [1, 1] [1] [1, 1] [1, 1] reluQ idQ idQ idQ 1)
        (specR (zeroPredNet [1, 1] [1, 1] [1] [1, 1] [1, 1] reluQ idQ idQ idQ 1)
          (zeroState [1, 1] [1, 1] 2 2)) l) =
      (List.range ([1, 1] : List ℕ).length).map (fun l =>
        zeroT (([1, 1] : List ℕ).getD l 0) (2 / 2 ^ l) (2 / 2 ^ l)) ∧
    (stepV (zeroPredNet [1, 1] [1, 1] [1] [1, 1] [1, 1] reluQ idQ idQ idQ 1)
        [[[1, 2], [3, 4]]]
        (zeroState [1, 1] [1, 1] 2 2)).2.core.drop (2 * ([1, 1] : List ℕ).length) =
      (List.range ([1, 1] : List ℕ).length).map (fun l =>
        mapT reluQ (subT (zeroT (([1, 1] : List ℕ).getD l 0) (2 / 2 ^ l) (2 / 2 ^ l))
          (specA (zeroPredNet [1, 1] [1, 1] [1] [1, 1] [1, 1] reluQ idQ idQ idQ 1)
            [[[1, 2], [3, 4]]] (zeroState [1, 1] [1, 1] 2 2) l)) ++
        mapT reluQ (subT
          (specA (zeroPredNet [1, 1] [1, 1] [1] [1, 1] [1, 1] reluQ idQ idQ idQ 1)
            [[[1, 2], [3, 4]]] (zeroState [1, 1] [1, 1] 2 2) l)
          (zeroT (([1, 1] : List ℕ).getD l 0) (2 / 2 ^ l) (2 / 2 ^ l)))) ∧
    specA (zeroPredNet [1, 1] [1, 1] [1] [1, 1] [1, 1] reluQ idQ idQ idQ 1)
      [[[1, 2], [3, 4]]] (zeroState [1, 1] [1, 1] 2 2) 0 = [[[1, 2], [3, 4]]] :=
  c8_zero_parameter_first_step_error [1, 1] [1, 1] [1] [1, 1] [1, 1] reluQ idQ idQ idQ
    1 2 2 _ _ _ rfl rfl rfl (by decide) rfl rfl (by decide) (by decide) (by decide)
    (by decide) (by decide)


theorem rShBody_top (m : PredNetM) (H W l : ℕ) (hl : ¬ l < m.nb_layers - 1)
    (ab : Option Shape3) :
    rShBody m (initRSh m H W) (initRSh m H W) (initESh m H W) l ab =
      some (initRSh m H W l) := by
  simp only [rShBody, initRSh, initESh, concatSh, upSh, convSh, sameSh, gateInCh,
    if_neg hl]
  simp [Option.bind]
  have harith : m.R_stack_sizes[l]?.getD 0 + 2 * m.stack_sizes[l]?.getD 0 =
      m.stack_sizes[l]?.getD 0 * 2 + m.R_stack_sizes[l]?.getD 0 := by omega
  rw [if_pos harith]
  simp

theorem rShBody_inner (m : PredNetM) (H W l : ℕ) (hl : l < m.nb_layers - 1)
    (hdH : 2 ^ (l + 1) ∣ H) (hdW : 2 ^ (l + 1) ∣ W) :
    rShBody m (initRSh m H W) (initRSh m H W) (initESh m H W) l
      (some (initRSh m H W (l + 1))) = some (initRSh m H W l) := by
  simp only [rShBody, initRSh, initESh, concatSh, upSh, convSh, sameSh, gateInCh,
    if_pos hl]
  simp [Option.bind, div_pow_double H l hdH, div_pow_double W l hdW]
  have harith : m.R_stack_sizes[l]?.getD 0 + 2 * m.stack_sizes[l]?.getD 0 =
      m.stack_sizes[l]?.getD 0 * 2 + m.R_stack_sizes[l]?.getD 0 := by omega
  rw [if_pos harith]
  simp

theorem rShF_init (m : PredNetM) (H W : ℕ)
    (hdH : 2 ^ (m.nb_layers - 1) ∣ H) (hdW : 2 ^ (m.nb_layers - 1) ∣ W) :
    ∀ k l, l < m.nb_layers → k = m.nb_layers - 1 - l →
      rShF m (initRSh m H W) (initRSh m H W) (initESh m H W) k l =
        some (initRSh m H W l) := by
  intro k
  induction k with
  | zero =>
    intro l hl hk
    exact rShBody_top m H W l (by omega) none
  | succ k ih =>
    intro l hl hk
    have hlt : l < m.nb_layers - 1 := by omega
    simp only [rShF]
    rw [ih (l + 1) (by omega) (by omega)]
    exact rShBody_inner m H W l hlt
      (dvd_trans (pow_dvd_pow 2 (by omega)) hdH)
      (dvd_trans (pow_dvd_pow 2 (by omega)) hdW)

theorem rShAt_init (m : PredNetM) (H W : ℕ)
    (hdH : 2 ^ (m.nb_layers - 1) ∣ H) (hdW : 2 ^ (m.nb_layers - 1) ∣ W)
    (l : ℕ) (hl : l < m.nb_layers) :
    rShAt m (initRSh m H W) (initRSh m H W) (initESh m H W) l =
      some (initRSh m H W l) :=
  rShF_init m H W hdH hdW (m.nb_layers - 1 - l) l hl rfl

theorem ahatSh_init (m : PredNetM) (H W : ℕ)
    (hdH : 2 ^ (m.nb_layers - 1) ∣ H) (hdW : 2 ^ (m.nb_layers - 1) ∣ W)
    (l : ℕ) (hl : l < m.nb_layers) :
    ahatSh m (fun j => rShAt m (initRSh m H W) (initRSh m H W) (initESh m H W) j) l =
      some ⟨m.stack_sizes.getD l 0, H / 2 ^ l, W / 2 ^ l⟩ := by
  simp only [ahatSh, rShAt_init m H W hdH hdW l hl, initRSh, ahatInCh, convSh]
  simp [Option.bind]

theorem eShOf_init (m : PredNetM) (H W : ℕ)
    (hdH : 2 ^ (m.nb_layers - 1) ∣ H) (hdW : 2 ^ (m.nb_layers - 1) ∣ W)
    (l : ℕ) (hl : l < m.nb_layers) :
    eShOf m (fun j => rShAt m (initRSh m H W) (initRSh m H W) (initESh m H W) j)
      (some ⟨m.stack_sizes.getD l 0, H / 2 ^ l, W / 2 ^ l⟩) l =
      some ⟨2 * m.stack_sizes.getD l 0, H / 2 ^ l, W / 2 ^ l⟩ := by
  simp only [eShOf, ahatSh_init m H W hdH hdW l hl, sameSh]
  simp [Option.bind]

theorem aeSh_init (m : PredNetM) (H W : ℕ)
    (hdH : 2 ^ (m.nb_layers - 1) ∣ H) (hdW : 2 ^ (m.nb_layers - 1) ∣ W)
    (hRA : ∀ l, l + 1 < m.nb_layers →
      m.R_stack_sizes.getD l 0 = m.stack_sizes.getD l 0) :
    ∀ l, l < m.nb_layers →
      aeSh m (fun j => rShAt m (initRSh m H W) (initRSh m H W) (initESh m H W) j)
        ⟨m.stack_sizes.getD 0 0, H, W⟩ l =
        (some ⟨m.stack_sizes.getD l 0, H / 2 ^ l, W / 2 ^ l⟩,
         some ⟨2 * m.stack_sizes.getD l 0, H / 2 ^ l, W / 2 ^ l⟩) := by
  intro l
  induction l with
  | zero =>
    intro hl
    have h0 := eShOf_init m H W hdH hdW 0 hl
    simp only [pow_zero, Nat.div_one] at h0
    simp only [aeSh, h0, pow_zero, Nat.div_one]
  | succ l ih =>
    intro hl
    have hih := ih (by omega)
    have hcv : convSh (aInCh m l) (m.stack_sizes.getD (l + 1) 0)
        ⟨2 * m.stack_sizes.getD l 0, H / 2 ^ l, W / 2 ^ l⟩ =
        some ⟨m.stack_sizes.getD (l + 1) 0, H / 2 ^ l, W / 2 ^ l⟩ := by
      simp only [convSh, aInCh, hRA l hl]
      simp
    have hdiv : ∀ X : ℕ, X / 2 ^ l / 2 = X / 2 ^ (l + 1) := by
      intro X
      rw [Nat.div_div_eq_div_mul, pow_succ]
    have he := eShOf_init m H W hdH hdW (l + 1) hl
    simp only [aeSh, hih]
    simp only [Option.bind_eq_bind, Option.some_bind, hcv, poolSh, hdiv,
      Option.pure_def, he]

theorem stepAll_ok (m : PredNetM) (H W : ℕ)
    (hdH : 2 ^ (m.nb_layers - 1) ∣ H) (hdW : 2 ^ (m.nb_layers - 1) ∣ W)
    (hRA : ∀ l, l + 1 < m.nb_layers →
      m.R_stack_sizes.getD l 0 = m.stack_sizes.getD l 0) :
    (List.range m.nb_layers).all (fun l =>
      (rShAt m (initRSh m H W) (initRSh m H W) (initESh m H W) l).isSome &&
      ((aeSh m (fun j => rShAt m (initRSh m H W) (initRSh m H W) (initESh m H W) j)
        ⟨m.stack_sizes.getD 0 0, H, W⟩ l).2).isSome) = true := by
  rw [List.all_eq_true]
  intro l hlmem
  rw [rShAt_init m H W hdH hdW l (List.mem_range.mp hlmem),
    aeSh_init m H W hdH hdW hRA l (List.mem_range.mp hlmem)]
  rfl

theorem take_drop_out (b t d2 d3 d4 : ℕ) (rs : Bool) (out : List ℕ) :
    (if rs then ([b, t, d2, d3, d4] : List ℕ).take 2 ++ out
     else ([b, t, d2, d3, d4] : List ℕ).take 1 ++ out).drop
      (if rs then 2 else 1) = out := by
  cases rs <;> rfl

theorem encDims_frame (m : PredNetM) (b t d2 d3 d4 : ℕ)
    (hdf : m.data_format = "channels_first" ∨ m.data_format = "channels_last") :
    encDims m ⟨chOf m [b, t, d2, d3, d4], rowOf m [b, t, d2, d3, d4],
      colOf m [b, t, d2, d3, d4]⟩ = [d2, d3, d4] := by
  rcases hdf with h | h
  · simp [encDims, chOf, rowOf, colOf, h]
  · have hne : m.data_format ≠ "channels_first" := by rw [h]; decide
    simp [encDims, chOf, rowOf, colOf, h, hne]

/-- C4 (amended): for a configuration with a parsed output mode, spatial
input sizes divisible by 2 to the nb_layers - 1, input channels equal to
stack_sizes[0], and R_stack_sizes agreeing with stack_sizes below the top
layer (without which the step fails at the A convolution built with the
wrong channel count, see the counterexample), the trailing dimensions of
the tensor one step produces equal the shape compute_output_shape
returns after the batch (and, with return_sequences, time) dimensions. -/
theorem c4_step_shape_matches_interface (m : PredNetM) (ish : List ℕ)
    (b t d2 d3 d4 : ℕ) (hish : ish = [b, t, d2, d3, d4])
    (hdf : m.data_format = "channels_first" ∨ m.data_format = "channels_last")
    (hmode : ModeOK m) (hL : 1 ≤ m.nb_layers)
    (hch : chOf m ish = m.stack_sizes.getD 0 0)
    (hdH : 2 ^ (m.nb_layers - 1) ∣ rowOf m ish)
    (hdW : 2 ^ (m.nb_layers - 1) ∣ colOf m ish)
    (hRA : ∀ l, l + 1 < m.nb_layers →
      m.R_stack_sizes.getD l 0 = m.stack_sizes.getD l 0) :
    stepTrailingOut m (initRSh m (rowOf m ish) (colOf m ish))
      (initRSh m (rowOf m ish) (colOf m ish))
      (initESh m (rowOf m ish) (colOf m ish))
      ⟨chOf m ish, rowOf m ish, colOf m ish⟩ =
      some ((compute_output_shape m ish).drop
        (if m.return_sequences then 2 else 1)) := by
  subst hish
  rw [hch]
  simp only [stepTrailingOut]
  rw [if_pos (stepAll_ok m (rowOf m [b, t, d2, d3, d4]) (colOf m [b, t, d2, d3, d4])
    hdH hdW hRA)]
  simp only [compute_output_shape]
  rw [take_drop_out]
  have hah0 := ahatSh_init m (rowOf m [b, t, d2, d3, d4]) (colOf m [b, t, d2, d3, d4])
    hdH hdW 0 (by omega)
  simp only [pow_zero, Nat.div_one] at hah0
  rcases hmode with ⟨hom, hty⟩ | ⟨hom, hty⟩ | ⟨hom, hty⟩ |
    ⟨ty, n, hty, hnum, htys, hn, hne1, hne2, hne3⟩
  · rw [hty, hom]
    simp only [eq_self_iff_true, if_true, if_pos rfl, hah0, Option.bind_eq_bind, Option.some_bind,
      Option.pure_def]
    rw [← hch, encDims_frame m b t d2 d3 d4 hdf]
    simp
  · rw [hty, hom]
    have hne : ("error" : String) ≠ "prediction" := by decide
    simp only [if_neg hne, eq_self_iff_true, if_true]
  · rw [hty, hom]
    have hnea : ("all" : String) ≠ "prediction" := by decide
    have hneb : ("all" : String) ≠ "error" := by decide
    simp only [if_neg hnea, if_neg hneb, eq_self_iff_true, if_true, hah0, Option.bind_eq_bind,
      Option.some_bind, Option.pure_def]
    rcases hdf with h | h
    · have hr : rowOf m [b, t, d2, d3, d4] = d3 := by
        rw [rowOf, if_pos h]
        rfl
      have hc : colOf m [b, t, d2, d3, d4] = d4 := by
        rw [colOf, if_pos h]
        rfl
      have hc2 : chOf m [b, t, d2, d3, d4] = d2 := by
        rw [chOf, if_pos h]
        rfl
      rw [hr, hc, ← hch, hc2]
      simp only [Option.some.injEq, List.cons.injEq, and_true, List.drop,
        List.prod_cons, List.prod_nil]
      ring
    · have hne : m.data_format ≠ "channels_first" := by rw [h]; decide
      have hr : rowOf m [b, t, d2, d3, d4] = d2 := by
        rw [rowOf, if_neg hne]
        rfl
      have hc : colOf m [b, t, d2, d3, d4] = d3 := by
        rw [colOf, if_neg hne]
        rfl
      have hc2 : chOf m [b, t, d2, d3, d4] = d4 := by
        rw [chOf, if_neg hne]
        rfl
      rw [hr, hc, ← hch, hc2]
      simp only [Option.some.injEq, List.cons.injEq, and_true, List.drop,
        List.prod_cons, List.prod_nil]
      ring
  · rw [hty, hnum]
    simp only [if_pos hn, if_neg hne1, if_neg hne2, if_neg hne3, Option.getD_some]
    have hae := aeSh_init m (rowOf m [b, t, d2, d3, d4]) (colOf m [b, t, d2, d3, d4])
      hdH hdW hRA n hn
    have hahn := ahatSh_init m (rowOf m [b, t, d2, d3, d4])
      (colOf m [b, t, d2, d3, d4]) hdH hdW n hn
    have hrn := rShAt_init m (rowOf m [b, t, d2, d3, d4])
      (colOf m [b, t, d2, d3, d4]) hdH hdW n hn
    rcases htys with rfl | rfl | rfl | rfl
    · have h1 : ¬ (("R" : String) = "A") := by decide
      have h2 : ¬ (("R" : String) = "Ahat") := by decide
      have h3 : ¬ (some ("R" : String) = some "A") := by decide
      have h4 : ¬ (some ("R" : String) = some "E") := by decide
      simp only [if_neg h1, if_neg h2, eq_self_iff_true, if_true, if_neg h4, hrn,
        Option.bind_eq_bind, Option.some_bind, Option.pure_def, encDims, initRSh]
      simp
    · have h1 : ¬ (("E" : String) = "A") := by decide
      have h2 : ¬ (("E" : String) = "Ahat") := by decide
      have h3 : ¬ (("E" : String) = "R") := by decide
      have h4 : ¬ (some ("E" : String) = some "R") := by decide
      simp only [if_neg h1, if_neg h2, if_neg h3, eq_self_iff_true, if_true, if_neg h4, hae,
        Option.bind_eq_bind, Option.some_bind, Option.pure_def, encDims]
    · have h4 : ¬ (some ("A" : String) = some "R") := by decide
      have h5 : ¬ (some ("A" : String) = some "E") := by decide
      simp only [eq_self_iff_true, if_true, if_pos rfl, if_neg h4, if_neg h5, hae, Option.bind_eq_bind,
        Option.some_bind, Option.pure_def, encDims]
      simp
    · have h1 : ¬ (("Ahat" : String) = "A") := by decide
      have h4 : ¬ (some ("Ahat" : String) = some "R") := by decide
      have h5 : ¬ (some ("Ahat" : String) = some "E") := by decide
      simp only [if_neg h1, eq_self_iff_true, if_true, if_neg h4, if_neg h5, hahn,
        Option.bind_eq_bind, Option.some_bind, Option.pure_def, encDims]
      simp

/-- Witness for C4: the two layer channels first instance c4wpn in mode R1
on a single channel 4 by 4 input. -/
theorem c4_step_shape_matches_interface_witness :
    stepTrailingOut c4wpn
      (initRSh c4wpn (rowOf c4wpn [1, 5, 1, 4, 4]) (colOf c4wpn [1, 5, 1, 4, 4]))
      (initRSh c4wpn (rowOf c4wpn [1, 5, 1, 4, 4]) (colOf c4wpn [1, 5, 1, 4, 4]))
      (initESh c4wpn (rowOf c4wpn [1, 5, 1, 4, 4]) (colOf c4wpn [1, 5, 1, 4, 4]))
      ⟨chOf c4wpn [1, 5, 1, 4, 4], rowOf c4wpn [1, 5, 1, 4, 4],
        colOf c4wpn [1, 5, 1, 4, 4]⟩ =
      some ((compute_output_shape c4wpn [1, 5, 1, 4, 4]).drop
        (if c4wpn.return_sequences then 2 else 1)) :=
  c4_step_shape_matches_interface c4wpn [1, 5, 1, 4, 4] 1 5 1 4 4 rfl
    (Or.inl rfl)
    (Or.inr (Or.inr (Or.inr ⟨"R", 1, rfl, rfl, Or.inl rfl, by decide, by decide,
      by decide, by decide⟩)))
    (by decide) (by decide) (by decide) (by decide)
    (fun l hl => by
      have h0 : l = 0 := by
        have : c4wpn.nb_layers = 2 := rfl
        omega
      subst h0
      rfl)
